import Mathlib

/-!
# StackSync: the retrying step-orchestration engine of `src/index.js`

A shallow embedding of `src/index.js`.

* JavaScript values that matter for control flow are kept apart: a number read by
  `parseInt` is `JSNum` (an exact integer or `NaN`), a thrown value is `JSError`.
  The code's numbers are doubles; the model follows them for limits and counters
  below `2^53` (see `JSNum`).
* An asynchronous function is a `Prog α`: it receives the effects performed so far
  (oldest first) and yields its outcome, `Except.ok` when the promise resolves and
  `Except.error` when it rejects, together with the extended list of effects.
  All awaits of the source are sequential, so a run is one list of effects.
* The browser automation library is an external collaborator.  Its answers are
  read from a `Surface`, which may depend on everything that has happened so far;
  the theorems quantify over every `Surface`.  Every request to the browser can
  reject, `page.evaluate` and the final `browser.close()` included; only the timers
  of `delay` always resolve.
* Logging does not influence control flow and is not recorded; the timeout options
  passed along with a request are not recorded either.
-/

namespace StackSync

/-! ## JavaScript values -/

/-- A JavaScript number as `parseInt` produces it: `NaN` or an integer.  Integers are
exact here.  The code's numbers are doubles: beyond `2^53` its `parseInt` rounds, a very
long digit string gives `Infinity`, and the counter `attempt` of `withRetry` stops
growing at `2^53`, where that loop need not terminate.  A total function cannot follow
the code there, so the model agrees with the code for limits and counters below `2^53`
and says nothing reliable beyond. -/
inductive JSNum where
  | nan
  | int (i : Int)
  deriving DecidableEq, Repr

/-- The comparison `a <= b` of two numbers: false as soon as one side is `NaN`. -/
def JSNum.le : JSNum → JSNum → Bool
  | .int a, .int b => decide (a ≤ b)
  | _, _ => false

/-- The comparison `a === b` of two numbers: `NaN` is equal to nothing. -/
def JSNum.strictEq : JSNum → JSNum → Bool
  | .int a, .int b => decide (a = b)
  | _, _ => false

/-- A thrown value: the constructor name of the error object and its message. -/
structure JSError where
  name : String
  message : String
  deriving DecidableEq, Repr

/-- The value of `new Error(message)`. -/
def mkError (message : String) : JSError := ⟨"Error", message⟩

deriving instance DecidableEq for Except

/-! ## Strings -/

/-- The characters `String.prototype.trim` and `parseInt` skip: white space and line terminators. -/
def isStrWhiteSpace (c : Char) : Bool :=
  let n := c.toNat
  n = 0x9 || n = 0xA || n = 0xB || n = 0xC || n = 0xD || n = 0x20 || n = 0xA0 ||
  n = 0x1680 || (0x2000 ≤ n && n ≤ 0x200A) || n = 0x2028 || n = 0x2029 ||
  n = 0x202F || n = 0x205F || n = 0x3000 || n = 0xFEFF

/-- The method `s.trim()`. -/
def trim (s : String) : String :=
  String.mk ((s.data.dropWhile isStrWhiteSpace).reverse.dropWhile isStrWhiteSpace).reverse

/-- Splitting a character list at every occurrence of `sep`. -/
def splitChars (sep : Char) : List Char → List (List Char)
  | [] => [[]]
  | c :: cs =>
    if c = sep then [] :: splitChars sep cs
    else
      match splitChars sep cs with
      | [] => [[c]]
      | w :: ws => (c :: w) :: ws

/-- The method `s.split(sep)` for a one-character separator. -/
def split (s : String) (sep : Char) : List String :=
  (splitChars sep s.data).map String.mk

/-- The method `xs.join(sep)` on an array of strings. -/
def join (xs : List String) (sep : String) : String :=
  sep.intercalate xs

/-- The method `s.includes(pattern)`. -/
def includes (s pattern : String) : Bool :=
  s.data.tails.any (fun rest => pattern.data.isPrefixOf rest)

/-- The value of a digit character in `radix`, when it has one. -/
def digitValue (radix : Nat) (c : Char) : Option Nat :=
  let n := c.toNat
  let v :=
    if 48 ≤ n ∧ n ≤ 57 then some (n - 48)
    else if 97 ≤ n ∧ n ≤ 122 then some (n - 97 + 10)
    else if 65 ≤ n ∧ n ≤ 90 then some (n - 65 + 10)
    else none
  v.bind (fun d => if d < radix then some d else none)

/-- The longest prefix of digits of `radix`, read most significant first. -/
def readDigits (radix : Nat) : List Char → List Nat
  | [] => []
  | c :: cs =>
    match digitValue radix c with
    | some d => d :: readDigits radix cs
    | none => []

/-- The global `parseInt(s)` without a radix argument: leading white space is skipped,
a sign and a `0x` prefix are honoured, the longest digit prefix is read, and no digit
at all gives `NaN`. -/
def parseInt (s : String) : JSNum :=
  let cs := s.data.dropWhile isStrWhiteSpace
  let signed : Int × List Char :=
    match cs with
    | '-' :: rest => (-1, rest)
    | '+' :: rest => (1, rest)
    | _ => (1, cs)
  let based : Nat × List Char :=
    match signed.2 with
    | '0' :: 'x' :: rest => (16, rest)
    | '0' :: 'X' :: rest => (16, rest)
    | _ => (10, signed.2)
  match readDigits based.1 based.2 with
  | [] => .nan
  | ds => .int (signed.1 * (ds.foldl (fun acc d => acc * based.1 + d) 0 : Nat))

/-- The string a template literal inserts for a possibly `undefined` string. -/
def interpolate : Option String → String
  | some s => s
  | none => "undefined"

/-! ## Discovered entities -/

/-- One element of the array built by `page.$$eval('.blocklist .relative', …)`. -/
structure Environment where
  name : String
  dashboard : String
  stacksLink : String
  deriving DecidableEq, Repr

/-- One element of the array built from `table tbody tr td a`. -/
structure Stack where
  name : String
  link : String
  deriving DecidableEq, Repr

/-! ## Effects -/

/-- The closures handed to `page.evaluate` by `updateStack`, in source order. -/
inductive Script where
  | editorTab
  | repull
  | confirm
  | errorText
  | stackStatus
  deriving DecidableEq, Repr

/-- The elements a closure of `updateStack` clicks from inside the page. -/
inductive Target where
  | editorTab
  | repullCheckbox
  | modalUpdate
  deriving DecidableEq, Repr

/-- The effects a run performs, in the order of the source's awaits.  `updateStack`
marks the entry into `updateStack(page, stack)`; `invoke` is an invocation of an
operation that is known only by its outcomes. -/
inductive Event where
  | launch (headless : Bool)
  | newPage
  | setDefaultTimeout (ms : JSNum)
  | clearCookies
  | setCacheEnabled (enabled : Bool)
  | goto (url : String)
  | typeText (selector : String) (text : Option String)
  | click (selector : String)
  | waitForSelector (selector : String)
  | evalEnvironments
  | evalStacks
  | evaluate (script : Script)
  | domClick (target : Target)
  | close
  | delay (ms : JSNum)
  | updateStack (stack : Option Stack)
  | invoke (label : String)
  deriving DecidableEq, Repr

/-- The effects performed so far, oldest first. -/
abbrev Trace := List Event

/-- An asynchronous function: from the effects so far to its outcome and the effects after it. -/
def Prog (α : Type) : Type := Trace → Except JSError α × Trace

/-- A resolved promise. -/
def Prog.pure {α : Type} (a : α) : Prog α := fun t => (.ok a, t)

/-- Sequencing by `await`: a rejection skips the continuation. -/
def Prog.bind {α β : Type} (p : Prog α) (f : α → Prog β) : Prog β := fun t =>
  match p t with
  | (.ok a, t1) => f a t1
  | (.error e, t1) => (.error e, t1)

instance : Monad Prog where
  pure := Prog.pure
  bind := Prog.bind

/-- The statement `throw e`. -/
def Prog.throw {α : Type} (e : JSError) : Prog α := fun t => (.error e, t)

/-- Performing one effect that cannot reject. -/
def emit (e : Event) : Prog Unit := fun t => (.ok (), t ++ [e])

/-! ## Configuration (source lines 20-44) -/

/-- The variables of `process.env` the program reads; `none` is an unset variable. -/
structure ProcessEnv where
  PORTAINER_URL : Option String
  PORTAINER_USERNAME : Option String
  PORTAINER_PASSWORD : Option String
  PORTAINER_STACKS : Option String
  PORTAINER_ENVIRONMENT : Option String
  APP_ENV : Option String
  OPERATION_TIMEOUT : Option String
  RETRY_ATTEMPTS : Option String
  RETRY_DELAY : Option String
  deriving DecidableEq, Repr

/-- The record `config`. `undefined` fields are `none`. -/
structure Config where
  url : String
  username : Option String
  password : Option String
  stacksNames : List String
  environment : Option String
  isProd : Bool
  timeout : JSNum
  retryAttempts : JSNum
  retryDelay : JSNum
  deriving DecidableEq, Repr

/-- The expression `v || fallback` for a possibly unset string: an unset or empty
string is falsy. -/
def orDefault (v : Option String) (fallback : String) : String :=
  match v with
  | some s => if s = "" then fallback else s
  | none => fallback

/-- The object literal of source lines 20-30, evaluated when the module loads.  Reading
`.split` of an unset `PORTAINER_STACKS` throws a `TypeError`. -/
def loadConfig (env : ProcessEnv) : Except JSError Config :=
  match env.PORTAINER_STACKS with
  | none => .error ⟨"TypeError", "Cannot read properties of undefined (reading 'split')"⟩
  | some names =>
    .ok {
      url := orDefault env.PORTAINER_URL "http://localhost:9000"
      username := env.PORTAINER_USERNAME
      password := env.PORTAINER_PASSWORD
      stacksNames := split names ','
      environment := env.PORTAINER_ENVIRONMENT
      isProd := decide (env.APP_ENV = some "prod")
      timeout := parseInt (orDefault env.OPERATION_TIMEOUT "30000")
      retryAttempts := parseInt (orDefault env.RETRY_ATTEMPTS "3")
      retryDelay := parseInt (orDefault env.RETRY_DELAY "5000") }

/-- The values `config[field]` can take. -/
inductive FieldValue where
  | undefined
  | str (s : String)
  | arr (xs : List String)
  deriving DecidableEq, Repr

/-- JavaScript truthiness: `undefined` and the empty string are falsy, every array is truthy. -/
def FieldValue.truthy : FieldValue → Bool
  | .undefined => false
  | .str s => decide (s ≠ "")
  | .arr _ => true

/-- A possibly `undefined` string as a field value. -/
def FieldValue.ofString : Option String → FieldValue
  | some s => .str s
  | none => .undefined

/-- The lookup `config[field]` for the names `validateConfig` asks for. -/
def Config.field (config : Config) (field : String) : FieldValue :=
  if field = "username" then .ofString config.username
  else if field = "password" then .ofString config.password
  else if field = "stacksNames" then .arr config.stacksNames
  else if field = "environment" then .ofString config.environment
  else .undefined

/-- The function `validateConfig()` (source lines 33-44). -/
def validateConfig (config : Config) : Except JSError Unit :=
  let requiredFields := ["username", "password", "stacksNames", "environment"]
  let missingFields := requiredFields.filter (fun field => !(config.field field).truthy)
  if missingFields.length > 0 then
    .error (mkError ("Missing required environment variables: " ++ join missingFields ", "))
  else if config.stacksNames.length ≤ 0 then
    .error (mkError "At least one stack name must be provided in PORTAINER_STACKS")
  else
    .ok ()

/-! ## The retry executor (source lines 46-63) -/

/-- The helper `delay(ms)`: a timer that always resolves. -/
def delay (ms : JSNum) : Prog Unit := emit (.delay ms)

/-- The `for` loop of `withRetry`, entered with the current value of `attempt`.
The result is `none` when the loop ends without a `return` (the function then
returns `undefined`).  The counter is an exact integer (see `JSNum` for the range in
which this is the code's counter). -/
@[semireducible]
def withRetryLoop {α : Type} (config : Config) (operation : Prog α) (attempt : Int) :
    Prog (Option α) := fun t =>
  if _h : JSNum.le (.int attempt) config.retryAttempts = true then
    match operation t with
    | (.ok r, t1) => (.ok (some r), t1)
    | (.error error, t1) =>
      if JSNum.strictEq (.int attempt) config.retryAttempts then
        (.error error, t1)
      else
        withRetryLoop config operation (attempt + 1) (delay config.retryDelay t1).2
  else
    (.ok none, t)
termination_by (match config.retryAttempts with
  | .int n => (n + 1 - attempt).toNat
  | .nan => 0)
decreasing_by
  cases hN : config.retryAttempts with
  | nan => simp [hN, JSNum.le] at _h
  | int n =>
    simp only [hN, JSNum.le, decide_eq_true_eq] at _h
    simp only
    omega

/-- The function `withRetry(operation, name)`; `name` only labels log lines. -/
def withRetry {α : Type} (config : Config) (operation : Prog α) : Prog (Option α) :=
  withRetryLoop config operation 1

/-- An operation known only by its outcomes: its `i`-th invocation (from 0) yields
`outcomes i`, and every invocation is recorded. -/
def scripted {α : Type} (label : String) (outcomes : Nat → Except JSError α) : Prog α :=
  fun t => (outcomes (t.count (.invoke label)), t ++ [.invoke label])

/-! ## The automation surface -/

/-- What follows a label matched by `label.space-right` (`nextElementSibling`). -/
structure Sibling where
  isSwitch : Bool
  hasCheckbox : Bool
  deriving DecidableEq, Repr

/-- An element matched by `label.space-right`. -/
structure Label where
  textContent : String
  nextElementSibling : Option Sibling
  deriving DecidableEq, Repr

/-- An element matched by `button.btn.btn-primary` inside the modal. -/
structure Button where
  textContent : String
  disabled : Bool
  deriving DecidableEq, Repr

/-- What the closures of `updateStack` can see of the document, in document order:
the text of the tabs `ul.nav-tabs li a`, the labels `label.space-right`, the primary
buttons of the first modal content element (if there is one), whether the element
`div[authorization="PortainerStackUpdate"]` exists and whether a success toast exists. -/
structure Dom where
  tabs : List String
  labels : List Label
  modal : Option (List Button)
  updateRegion : Bool
  successToast : Bool
  deriving DecidableEq, Repr

/-- The answers of the browser.  Each is asked with the effects so far, the request
included, so an answer may depend on the whole history.
`rejects` decides for every request whether the browser refuses it (launch, page setup,
navigation, typing, clicking, waiting for a selector, extracting the lists,
`page.evaluate`, `browser.close()`); when `page.evaluate` is not refused, the closure of
`updateStack` it carries runs on `dom`. -/
structure Surface where
  rejects : Trace → Option JSError
  environments : Trace → List Environment
  stackList : Trace → List Stack
  dom : Trace → Dom
  toastText : Trace → String

/-- A request whose promise resolves to nothing of interest. -/
def call (s : Surface) (e : Event) : Prog Unit := fun t =>
  match s.rejects (t ++ [e]) with
  | none => (.ok (), t ++ [e])
  | some error => (.error error, t ++ [e])

/-- Reading an answer of the browser to the request just made. -/
def answer {α : Type} (f : Trace → α) : Prog α := fun t => (.ok (f t), t)

/-- The call `page.evaluate(closure)`: unless the browser refuses the request, the
closure sees the current document, may click elements of it, and its return value or
exception becomes the outcome. -/
def evaluate {α : Type} (s : Surface) (script : Script)
    (closure : Dom → Except JSError α × List Target) : Prog α := fun t =>
  match s.rejects (t ++ [.evaluate script]) with
  | some error => (.error error, t ++ [.evaluate script])
  | none =>
    ((closure (s.dom (t ++ [.evaluate script]))).1,
      t ++ [.evaluate script] ++
        (closure (s.dom (t ++ [.evaluate script]))).2.map .domClick)

/-- The pattern `promise.catch(() => null)`: whether the promise resolved. -/
def resolvedOrNull (p : Prog Unit) : Prog Bool := fun t =>
  match p t with
  | (.ok (), t1) => (.ok true, t1)
  | (.error _, t1) => (.ok false, t1)

/-! ## The stack update workflow (source lines 64-262) -/

def updateButtonSelector : String := "div[authorization=\"PortainerStackUpdate\"] button"

def modalSelector : String := ".app-react-components-modals-Modal-Modal-module__modal-content"

def errorToastSelector : String := ".toast-error, .Toastify__toast--error"

/-- The closure of source lines 83-91. -/
def editorTabScript (d : Dom) : Except JSError Bool × List Target :=
  match d.tabs.find? (fun tab => includes tab "Editor") with
  | some _ => (.ok true, [.editorTab])
  | none => (.error (mkError "Editor tab not found"), [])

/-- The closure of source lines 120-152.  Nothing inside its `try` can throw on a
document of this shape, so its `catch` is not reached. -/
def repullScript (d : Dom) : Except JSError Bool × List Target :=
  match d.labels.find? (fun label => trim label.textContent = "Re-pull image and redeploy") with
  | none => (.ok false, [])
  | some switchLabel =>
    match switchLabel.nextElementSibling with
    | none => (.ok false, [])
    | some switchContainer =>
      if !switchContainer.isSwitch then (.ok false, [])
      else if !switchContainer.hasCheckbox then (.ok false, [])
      else (.ok true, [.repullCheckbox])

/-- The closure of source lines 167-198. -/
def confirmScript (d : Dom) : Except JSError Bool × List Target :=
  match d.modal with
  | none => (.ok false, [])
  | some buttons =>
    match buttons.find? (fun button => trim button.textContent = "Update") with
    | none => (.ok false, [])
    | some updateButton =>
      if updateButton.disabled then (.ok false, [])
      else (.ok true, [.modalUpdate])

/-- The closure of source lines 225-239. -/
def statusScript (d : Dom) : String :=
  if d.updateRegion then "success"
  else if d.successToast then "success"
  else if d.modal.isSome then "updating"
  else "unknown"

/-- The call `page.evaluate(el => el.textContent, errorToast)`. -/
def readToastText (s : Surface) : Prog String := do
  call s (.evaluate .errorText)
  answer s.toastText

/-- Source lines 68-116: navigate, open the editor tab, open the update dialog. -/
def openDialog (s : Surface) (stack : Stack) : Prog Unit := do
  call s (.goto stack.link)
  call s (.waitForSelector "ul.nav-tabs")
  let _ ← evaluate s .editorTab editorTabScript
  delay (.int 2000)
  call s (.waitForSelector updateButtonSelector)
  call s (.click updateButtonSelector)
  call s (.waitForSelector modalSelector)
  delay (.int 1000)

/-- Source lines 118-159: switch the re-pull option on. -/
def activateRepull (s : Surface) : Prog Unit := do
  let repullActivated ← evaluate s .repull repullScript
  if !repullActivated then
    Prog.throw (mkError "Failed to activate repull option")
  else
    delay (.int 1000)

/-- Source lines 161-208: press the modal's `Update` button. -/
def confirmUpdate (s : Surface) : Prog Unit := do
  let updateConfirmed ← evaluate s .confirm confirmScript
  if !updateConfirmed then
    Prog.throw (mkError "Failed to click update button in modal")
  else
    pure ()

/-- Source lines 210-255: look for an error toast, then read the state of the stack.
The result is the local `stackStatus`. -/
def observeOutcome (s : Surface) : Prog String := do
  let errorToast ← resolvedOrNull (call s (.waitForSelector errorToastSelector))
  if errorToast then
    let errorText ← readToastText s
    Prog.throw (mkError ("Update failed - Error: " ++ errorText))
  else
    evaluate s .stackStatus (fun d => (.ok (statusScript d), []))

/-- Source lines 68-208: one attempt up to the confirmed update. -/
def reachConfirmed (s : Surface) (stack : Stack) : Prog Unit := do
  openDialog s stack
  activateRepull s
  confirmUpdate s

/-- The operation `updateStack` hands to `withRetry` (source lines 67-258): one
attempt at the whole workflow.  All three values of `stackStatus` end it normally. -/
def updateAttempt (s : Surface) (stack : Stack) : Prog Unit := do
  reachConfirmed s stack
  let _stackStatus ← observeOutcome s
  pure ()

/-- The function `updateStack(page, stack)`.  `stack` is what `stacks.find` returned;
reading `stack.name` of `undefined` throws. -/
def updateStack (config : Config) (s : Surface) (stack : Option Stack) : Prog Unit := do
  emit (.updateStack stack)
  match stack with
  | none => Prog.throw ⟨"TypeError", "Cannot read properties of undefined (reading 'name')"⟩
  | some stack =>
    let _ ← withRetry config (updateAttempt s stack)
    delay (.int 3000)

/-! ## The run coordinator (source lines 264-349) -/

/-- Source lines 267-274: validate the configuration and assign `browser`. -/
def mainLaunch (config : Config) (s : Surface) : Prog Unit := do
  match validateConfig config with
  | .error error => Prog.throw error
  | .ok () => call s (.launch config.isProd)

/-- The call `page.$$eval('.blocklist .relative', …)` of source lines 296-304. -/
def evalEnvironments (s : Surface) : Prog (List Environment) := do
  call s .evalEnvironments
  answer s.environments

/-- The call `page.evaluate(…)` of source lines 318-324. -/
def evalStacks (s : Surface) : Prog (List Stack) := do
  call s .evalStacks
  answer s.stackList

/-- Source lines 276-305: set the page up, open the console, log in and list the
environments.  The result is the local `environments`. -/
def mainEnumerate (config : Config) (s : Surface) : Prog (Option (List Environment)) := do
  call s .newPage
  call s (.setDefaultTimeout config.timeout)
  call s .clearCookies
  call s (.setCacheEnabled false)
  let _ ← withRetry config (call s (.goto config.url))
  let _ ← withRetry config (do
    call s (.typeText "#username" config.username)
    call s (.typeText "#password" config.password)
    call s (.click "button[type=\"submit\"]")
    call s (.waitForSelector "div.blocklist"))
  withRetry config (evalEnvironments s)

/-- Source lines 307-310: the local `targetEnv`. -/
def resolveEnvironment (config : Config) (environments : Option (List Environment)) :
    Except JSError Environment :=
  match environments with
  | none => .error ⟨"TypeError", "Cannot read properties of undefined (reading 'find')"⟩
  | some environments =>
    match environments.find? (fun i => decide (some i.name = config.environment)) with
    | none => .error (mkError ("Environment " ++ interpolate config.environment ++ " not found"))
    | some targetEnv => .ok targetEnv

/-- Source lines 313-325: open the stacks view and list the stacks.  The result is the
local `stacks`. -/
def discoverStacks (config : Config) (s : Surface) (targetEnv : Environment) :
    Prog (Option (List Stack)) := do
  call s (.goto targetEnv.stacksLink)
  call s (.waitForSelector "table")
  withRetry config (evalStacks s)

/-- The expression `stacks.find(s => s.name === name)`. -/
def findStack (stackList : Option (List Stack)) (name : String) : Except JSError (Option Stack) :=
  match stackList with
  | none => .error ⟨"TypeError", "Cannot read properties of undefined (reading 'find')"⟩
  | some stackList => .ok (stackList.find? (fun s => decide (s.name = name)))

/-- The array `missingStacks` of source line 328.  The callback reads `stacks.find`, so
an `undefined` `stacks` throws as soon as there is a name to filter. -/
def missingStacks (stackList : Option (List Stack)) (stacksNames : List String) :
    Except JSError (List String) :=
  match stackList with
  | some stackList =>
    .ok (stacksNames.filter
      (fun name => !(stackList.find? (fun s => decide (s.name = name))).isSome))
  | none =>
    if stacksNames = [] then .ok []
    else .error ⟨"TypeError", "Cannot read properties of undefined (reading 'find')"⟩

/-- Source lines 327-331: every requested stack must have been discovered. -/
def validateStacks (config : Config) (stackList : Option (List Stack)) : Except JSError Unit :=
  match missingStacks stackList config.stacksNames with
  | .error error => .error error
  | .ok missing =>
    if missing.length > 0 then
      .error (mkError ("Stacks not found: " ++ join missing ", "))
    else .ok ()

/-- Source lines 333-337: the loop over the requested names. -/
def updateAll (config : Config) (s : Surface) (stackList : Option (List Stack)) :
    List String → Prog Unit
  | [] => pure ()
  | name :: rest => do
    match findStack stackList name with
    | .error error => Prog.throw error
    | .ok stack =>
      updateStack config s stack
      updateAll config s stackList rest

/-- Source lines 276-325: from the new page to the local `stacks`. -/
def mainDiscover (config : Config) (s : Surface) : Prog (Option (List Stack)) := do
  let environments ← mainEnumerate config s
  match resolveEnvironment config environments with
  | .error error => Prog.throw error
  | .ok targetEnv => discoverStacks config s targetEnv

/-- Source lines 276-339: what the `try` block does once `browser` is assigned. -/
def mainSession (config : Config) (s : Surface) : Prog Unit := do
  let stackList ← mainDiscover config s
  match validateStacks config stackList with
  | .error error => Prog.throw error
  | .ok () => updateAll config s stackList config.stacksNames

/-- The function `main()`.  The `catch` block rethrows what the `try` block threw; the
`finally` block awaits `browser.close()` when `browser` was assigned, that is when
`puppeteer.launch` resolved.  A rejection of `browser.close()` replaces the outcome of
the `try` block. -/
def main (config : Config) (s : Surface) : Prog Unit := fun t =>
  match mainLaunch config s t with
  | (.error error, t1) => (.error error, t1)
  | (.ok (), t1) =>
    match mainSession config s t1 with
    | (outcome, t2) =>
      match call s .close t2 with
      | (.error closeError, t3) => (.error closeError, t3)
      | (.ok (), t3) => (outcome, t3)

/-! ## Concrete inputs -/

/-- A process environment with every required variable set and `RETRY_ATTEMPTS=3`. -/
def envThreeAttempts : ProcessEnv where
  PORTAINER_URL := some "http://portainer.local:9000"
  PORTAINER_USERNAME := some "admin"
  PORTAINER_PASSWORD := some "secret"
  PORTAINER_STACKS := some "web,worker"
  PORTAINER_ENVIRONMENT := some "local"
  APP_ENV := some "prod"
  OPERATION_TIMEOUT := none
  RETRY_ATTEMPTS := some "3"
  RETRY_DELAY := none

/-- The configuration `loadConfig envThreeAttempts` evaluates to. -/
def configThreeAttempts : Config where
  url := "http://portainer.local:9000"
  username := some "admin"
  password := some "secret"
  stacksNames := ["web", "worker"]
  environment := some "local"
  isProd := true
  timeout := .int 30000
  retryAttempts := .int 3
  retryDelay := .int 5000

/-- The same process environment with `RETRY_ATTEMPTS=0`. -/
def envZeroAttempts : ProcessEnv :=
  { envThreeAttempts with RETRY_ATTEMPTS := some "0" }

/-- An operation that fails twice with a timeout and then succeeds. -/
def failsTwice : Nat → Except JSError String :=
  fun i => if i < 2 then .error (mkError "timeout") else .ok "deployed"

/-- An operation that fails on every invocation, with a numbered message. -/
def alwaysFails : Nat → Except JSError String :=
  fun i => .error (mkError ("timeout " ++ toString i))

/-- The same process environment with `PORTAINER_STACKS=` (set, but empty). -/
def envEmptyStacks : ProcessEnv :=
  { envThreeAttempts with PORTAINER_STACKS := some "" }

/-- The same process environment without `PORTAINER_STACKS`. -/
def envUnsetStacks : ProcessEnv :=
  { envThreeAttempts with PORTAINER_STACKS := none }

/-- A process environment with `PORTAINER_STACKS=` (empty) and no `PORTAINER_USERNAME`. -/
def envNoUserEmptyStacks : ProcessEnv :=
  { envThreeAttempts with PORTAINER_USERNAME := none, PORTAINER_STACKS := some "" }

/-- A configuration without a password and with an empty environment name. -/
def configNoPassword : Config :=
  { configThreeAttempts with password := none, environment := some "" }

/-- A document in which every step of the update workflow finds its element. -/
def dialogDom : Dom where
  tabs := ["Stack", "Editor"]
  labels := [⟨"Prune services", some ⟨true, true⟩⟩,
    ⟨" Re-pull image and redeploy ", some ⟨true, true⟩⟩]
  modal := some [⟨"Cancel", false⟩, ⟨" Update ", false⟩]
  updateRegion := false
  successToast := true

/-- A console with one environment `local` and the stacks `web` and `worker`, on which
every request succeeds and no error toast ever appears. -/
def consoleSurface : Surface where
  rejects := fun t =>
    if t.getLast? = some (.waitForSelector errorToastSelector) then
      some ⟨"TimeoutError", "Waiting for selector failed: 3000ms exceeded"⟩
    else none
  environments := fun _ => [⟨"primary", "/#!/1/docker/dashboard", "/#!/1/docker/stacks"⟩,
    ⟨"local", "/#!/2/docker/dashboard", "/#!/2/docker/stacks"⟩]
  stackList := fun _ => [⟨"web", "/stacks/web"⟩, ⟨"worker", "/stacks/worker"⟩]
  dom := fun _ => dialogDom
  toastText := fun _ => ""

/-- The same console when it cannot be reached: every navigation is refused. -/
def offlineSurface : Surface :=
  { consoleSurface with
    rejects := fun t =>
      match t.getLast? with
      | some (.goto _) => some (mkError "net::ERR_CONNECTION_REFUSED")
      | _ => none }

/-- The unreachable console when, on top, `browser.close()` is refused. -/
def crashedSurface : Surface :=
  { consoleSurface with
    rejects := fun t =>
      match t.getLast? with
      | some (.goto _) => some (mkError "net::ERR_CONNECTION_REFUSED")
      | some .close => some (mkError "Protocol error (Browser.close): Target closed")
      | _ => none }

/-- The console when the update button of `worker` never shows up. -/
def stuckSurface : Surface :=
  { consoleSurface with
    rejects := fun t =>
      if t.getLast? = some (.waitForSelector errorToastSelector) then
        some ⟨"TimeoutError", "Waiting for selector failed: 3000ms exceeded"⟩
      else if t.getLast? = some (.waitForSelector updateButtonSelector) ∧
          0 < t.count (.goto "/stacks/worker") then
        some ⟨"TimeoutError", "Waiting for selector failed: 30000ms exceeded"⟩
      else none }

/-- The same console when, on top, `browser.close()` is refused. -/
def stuckCrashedSurface : Surface :=
  { stuckSurface with
    rejects := fun t =>
      if t.getLast? = some .close then
        some (mkError "Protocol error (Browser.close): Target closed")
      else stuckSurface.rejects t }

/-- The console when the page is replaced right after the modal's `Update` button is
clicked: no error toast shows up, and `page.evaluate` is refused from then on. -/
def lostPageSurface : Surface :=
  { consoleSurface with
    rejects := fun t =>
      if t.getLast? = some (.waitForSelector errorToastSelector) then
        some ⟨"TimeoutError", "Waiting for selector failed: 3000ms exceeded"⟩
      else if t.getLast? = some (.evaluate .stackStatus) then
        some (mkError "Execution context was destroyed, most likely because of a navigation.")
      else none }

/-- A configuration that requests the stacks `web`, `ghost`, `web` and `phantom`. -/
def configGhost : Config :=
  { configThreeAttempts with stacksNames := ["web", "ghost", "web", "phantom"] }

/-- A configuration that names the environment `staging`. -/
def configStaging : Config :=
  { configThreeAttempts with environment := some "staging" }

/-- The effects of a successful launch, login and enumeration of the environments. -/
def loginTrace : Trace :=
  [.launch true, .newPage, .setDefaultTimeout (.int 30000), .clearCookies,
    .setCacheEnabled false, .goto "http://portainer.local:9000",
    .typeText "#username" (some "admin"), .typeText "#password" (some "secret"),
    .click "button[type=\"submit\"]", .waitForSelector "div.blocklist", .evalEnvironments]

/-- The effects of a successful run up to and including the listing of the stacks. -/
def discoveryTrace : Trace :=
  loginTrace ++ [.goto "/#!/2/docker/stacks", .waitForSelector "table", .evalStacks]

/-- The stack `web` of the console. -/
def webStack : Stack := ⟨"web", "/stacks/web"⟩

/-- The effects of opening the update dialog of `web`. -/
def dialogTrace : Trace :=
  [.goto "/stacks/web", .waitForSelector "ul.nav-tabs", .evaluate .editorTab,
    .domClick .editorTab, .delay (.int 2000), .waitForSelector updateButtonSelector,
    .click updateButtonSelector, .waitForSelector modalSelector, .delay (.int 1000)]

/-- The effects of one attempt on `web` up to the confirmed update. -/
def confirmedTrace : Trace :=
  dialogTrace ++ [.evaluate .repull, .domClick .repullCheckbox, .delay (.int 1000),
    .evaluate .confirm, .domClick .modalUpdate]

/-- A console whose dialog shows the re-pull label followed by something that is not a
switch. -/
def noSwitchSurface : Surface :=
  { consoleSurface with
    dom := fun _ =>
      { dialogDom with
        labels := [⟨"Re-pull image and redeploy", some ⟨false, true⟩⟩] } }

/-- A console that shows an error toast with the text `image not found` after every
confirmed update. -/
def toastSurface : Surface :=
  { consoleSurface with
    rejects := fun _ => none
    toastText := fun _ => "image not found" }

/-- The console when the update button of `worker` fails to show up during the first
two attempts on that stack. -/
def flakySurface : Surface :=
  { consoleSurface with
    rejects := fun t =>
      if t.getLast? = some (.waitForSelector errorToastSelector) then
        some ⟨"TimeoutError", "Waiting for selector failed: 3000ms exceeded"⟩
      else if t.getLast? = some (.waitForSelector updateButtonSelector) ∧
          t.count (.goto "/stacks/worker") = 1 ∨
          t.getLast? = some (.waitForSelector updateButtonSelector) ∧
          t.count (.goto "/stacks/worker") = 2 then
        some ⟨"TimeoutError", "Waiting for selector failed: 30000ms exceeded"⟩
      else none }

/-! ## Vocabulary of the statements -/

/-- The effects of `k` failed attempts of an operation known by its outcomes: each
invocation is followed by one delay. -/
def failedAttempts (label : String) (ms : JSNum) : Nat → Trace
  | 0 => []
  | k + 1 => .invoke label :: .delay ms :: failedAttempts label ms k

/-- The stacks on which `updateStack` was entered, in order. -/
def started : Trace → List (Option Stack)
  | [] => []
  | .updateStack stack :: rest => stack :: started rest
  | _ :: rest => started rest

/-- Whether a string-valued setting is absent or empty. -/
def absentOrEmpty : Option String → Bool
  | none => true
  | some v => decide (v = "")

/-- The string-valued required settings that are absent or empty, in the order
username, password, environment. -/
def missingSettings (config : Config) : List String :=
  (if absentOrEmpty config.username then ["username"] else []) ++
  (if absentOrEmpty config.password then ["password"] else []) ++
  (if absentOrEmpty config.environment then ["environment"] else [])

/-- The re-pull toggle cannot be located in a document: no label has the trimmed text
`Re-pull image and redeploy`, or the first such label has no next sibling, or that
sibling is not a switch, or the switch holds no checkbox. -/
def toggleMissing (d : Dom) : Prop :=
  (∀ label ∈ d.labels, trim label.textContent ≠ "Re-pull image and redeploy") ∨
  ∃ label,
    d.labels.find? (fun label => trim label.textContent = "Re-pull image and redeploy") =
      some label ∧
    (label.nextElementSibling = none ∨
      ∃ sibling, label.nextElementSibling = some sibling ∧
        (sibling.isSwitch = false ∨ sibling.hasCheckbox = false))

/-- The events of one attempt at the update workflow and of the discovery phase: page
requests, clicks inside the page and timers. -/
def Event.isPage : Event → Bool
  | .launch _ => false
  | .close => false
  | .updateStack _ => false
  | .invoke _ => false
  | _ => true

/-- The outcome of `main` when its `try` block ended with `outcome` after the effects `t`:
the `finally` block then closes the browser, and a rejection of `browser.close()` takes
the place of `outcome`. -/
def afterClose (s : Surface) (t : Trace) (outcome : Except JSError Unit) :
    Except JSError Unit :=
  match s.rejects (t ++ [.close]) with
  | none => outcome
  | some closeError => .error closeError

/-- The effects after the stacks of `names` have been worked through in turn from the
effects `t`, each one entered, its retried workflow returning normally, and followed by
the cooldown of three seconds; `none` when a name has no stack or a workflow raises. -/
def workThrough (config : Config) (s : Surface) (stackList : List Stack) :
    List String → Trace → Option Trace
  | [], t => some t
  | name :: rest, t =>
    match stackList.find? (fun st => decide (st.name = name)) with
    | none => none
    | some st =>
      match withRetry config (updateAttempt s st) (t ++ [.updateStack (some st)]) with
      | (.ok _, tB) => workThrough config s stackList rest (tB ++ [.delay (.int 3000)])
      | (.error _, _) => none

/-- A program that only appends effects, all of them satisfying `P`. -/
def Emits {α : Type} (P : Event → Prop) (p : Prog α) : Prop :=
  ∀ t, ∃ added, (p t).2 = t ++ added ∧ ∀ e ∈ added, P e

/-! ## Basic facts about programs -/

@[simp]
theorem bind_apply {α β : Type} (p : Prog α) (f : α → Prog β) (t : Trace) :
    (p >>= f) t = Prog.bind p f t := rfl

@[simp]
theorem pure_apply {α : Type} (a : α) (t : Trace) :
    (pure a : Prog α) t = (.ok a, t) := rfl

theorem bind_ok {α β : Type} {p : Prog α} {f : α → Prog β} {t t1 : Trace} {a : α}
    (h : p t = (.ok a, t1)) : Prog.bind p f t = f a t1 := by
  simp [Prog.bind, h]

theorem bind_error {α β : Type} {p : Prog α} {f : α → Prog β} {t t1 : Trace} {e : JSError}
    (h : p t = (.error e, t1)) : Prog.bind p f t = (.error e, t1) := by
  simp [Prog.bind, h]

theorem withRetryLoop_unfold {α : Type} (config : Config) (operation : Prog α)
    (attempt : Int) (t : Trace) :
    withRetryLoop config operation attempt t =
      if JSNum.le (.int attempt) config.retryAttempts = true then
        match operation t with
        | (.ok r, t1) => (.ok (some r), t1)
        | (.error error, t1) =>
          if JSNum.strictEq (.int attempt) config.retryAttempts then (.error error, t1)
          else withRetryLoop config operation (attempt + 1) (t1 ++ [.delay config.retryDelay])
      else (.ok none, t) := by
  rw [withRetryLoop]
  simp only [dite_eq_ite, delay, emit]

theorem withRetryLoop_exit {α : Type} (config : Config) (operation : Prog α)
    (attempt : Int) (t : Trace)
    (h : JSNum.le (.int attempt) config.retryAttempts = false) :
    withRetryLoop config operation attempt t = (.ok none, t) := by
  rw [withRetryLoop_unfold]; simp [h]

theorem withRetryLoop_ok {α : Type} (config : Config) (operation : Prog α)
    (attempt : Int) (t t1 : Trace) (r : α)
    (h : JSNum.le (.int attempt) config.retryAttempts = true)
    (hop : operation t = (.ok r, t1)) :
    withRetryLoop config operation attempt t = (.ok (some r), t1) := by
  rw [withRetryLoop_unfold]; simp [h, hop]

theorem withRetryLoop_last {α : Type} (config : Config) (operation : Prog α)
    (attempt : Int) (t t1 : Trace) (e : JSError)
    (h : JSNum.le (.int attempt) config.retryAttempts = true)
    (hop : operation t = (.error e, t1))
    (hlast : JSNum.strictEq (.int attempt) config.retryAttempts = true) :
    withRetryLoop config operation attempt t = (.error e, t1) := by
  rw [withRetryLoop_unfold]; simp [h, hop, hlast]

theorem withRetryLoop_retry {α : Type} (config : Config) (operation : Prog α)
    (attempt : Int) (t t1 : Trace) (e : JSError)
    (h : JSNum.le (.int attempt) config.retryAttempts = true)
    (hop : operation t = (.error e, t1))
    (hlast : JSNum.strictEq (.int attempt) config.retryAttempts = false) :
    withRetryLoop config operation attempt t =
      withRetryLoop config operation (attempt + 1) (t1 ++ [.delay config.retryDelay]) := by
  rw [withRetryLoop_unfold]; simp [h, hop, hlast]

theorem count_invoke_failedAttempts (label : String) (ms : JSNum) (k : Nat) :
    (failedAttempts label ms k).count (.invoke label) = k := by
  induction k with
  | zero => rfl
  | succ k ih => simp [failedAttempts, ih]

theorem count_delay_failedAttempts (label : String) (ms : JSNum) (k : Nat) :
    (failedAttempts label ms k).count (.delay ms) = k := by
  induction k with
  | zero => rfl
  | succ k ih => simp [failedAttempts, ih]

theorem failedAttempts_succ_append (label : String) (ms : JSNum) (k : Nat) :
    failedAttempts label ms (k + 1) = failedAttempts label ms k ++ [.invoke label, .delay ms] := by
  induction k with
  | zero => rfl
  | succ k ih =>
    have ih2 : Event.invoke label :: Event.delay ms :: failedAttempts label ms k =
        failedAttempts label ms k ++ [.invoke label, .delay ms] := ih
    show Event.invoke label :: Event.delay ms ::
        (Event.invoke label :: Event.delay ms :: failedAttempts label ms k) =
      (Event.invoke label :: Event.delay ms :: failedAttempts label ms k) ++
        [.invoke label, .delay ms]
    rw [List.cons_append, List.cons_append, ← ih2]

/-- The loop on a scripted operation, entered after `j` failed attempts, when `m` more
failures precede the first success. -/
theorem withRetryLoop_scripted_success {α : Type} (config : Config) (n : Int)
    (hn : config.retryAttempts = .int n) (label : String)
    (outcomes : Nat → Except JSError α) (r : α) (m : Nat) :
    ∀ j : Nat, ((j + m : Nat) : Int) < n →
      (∀ i, i < j + m → ∃ e, outcomes i = .error e) → outcomes (j + m) = .ok r →
      withRetryLoop config (scripted label outcomes) (j + 1)
          (failedAttempts label config.retryDelay j) =
        (.ok (some r), failedAttempts label config.retryDelay (j + m) ++ [.invoke label]) := by
  induction m with
  | zero =>
    intro j hlt _ hok
    apply withRetryLoop_ok
    · simp only [hn, JSNum.le, decide_eq_true_eq]; push_cast at hlt; omega
    · simp only [scripted, count_invoke_failedAttempts]
      simpa using hok
  | succ m ih =>
    intro j hlt hfail hok
    obtain ⟨e, he⟩ := hfail j (by omega)
    have hstep := withRetryLoop_retry config (scripted label outcomes) (j + 1)
      (failedAttempts label config.retryDelay j)
      (failedAttempts label config.retryDelay j ++ [.invoke label]) e
      (by simp only [hn, JSNum.le, decide_eq_true_eq]; push_cast at hlt; omega)
      (by simp only [scripted, count_invoke_failedAttempts, he])
      (by simp only [hn, JSNum.strictEq, decide_eq_false_iff_not]; push_cast at hlt; omega)
    rw [hstep]
    have hshape : failedAttempts label config.retryDelay j ++ [.invoke label] ++
        [.delay config.retryDelay] = failedAttempts label config.retryDelay (j + 1) := by
      rw [failedAttempts_succ_append]; simp
    rw [hshape]
    have := ih (j + 1) (by push_cast at hlt ⊢; omega)
      (fun i hi => hfail i (by omega)) (by rw [← hok]; congr 1; omega)
    have hidx : j + 1 + m = j + (m + 1) := by omega
    rw [hidx] at this
    exact_mod_cast this

/-- The loop on a scripted operation that never succeeds, entered after `j` failed
attempts, when `m` more attempts are left after the current one. -/
theorem withRetryLoop_scripted_exhaust {α : Type} (config : Config) (n : Nat)
    (hn : config.retryAttempts = .int n) (label : String)
    (outcomes : Nat → Except JSError α) (e : JSError) (m : Nat) :
    ∀ j : Nat, j + m + 1 = n →
      (∀ i, ∃ e, outcomes i = .error e) → outcomes (j + m) = .error e →
      withRetryLoop config (scripted label outcomes) (j + 1)
          (failedAttempts label config.retryDelay j) =
        (.error e, failedAttempts label config.retryDelay (j + m) ++ [.invoke label]) := by
  induction m with
  | zero =>
    intro j hjn _ hlast
    apply withRetryLoop_last
    · simp only [hn, JSNum.le, decide_eq_true_eq]; omega
    · simp only [scripted, count_invoke_failedAttempts]
      simpa using hlast
    · simp only [hn, JSNum.strictEq, decide_eq_true_eq]; omega
  | succ m ih =>
    intro j hjn hfail hlast
    obtain ⟨e1, he1⟩ := hfail j
    have hstep := withRetryLoop_retry config (scripted label outcomes) (j + 1)
      (failedAttempts label config.retryDelay j)
      (failedAttempts label config.retryDelay j ++ [.invoke label]) e1
      (by simp only [hn, JSNum.le, decide_eq_true_eq]; omega)
      (by simp only [scripted, count_invoke_failedAttempts, he1])
      (by simp only [hn, JSNum.strictEq, decide_eq_false_iff_not]; omega)
    rw [hstep]
    have hshape : failedAttempts label config.retryDelay j ++ [.invoke label] ++
        [.delay config.retryDelay] = failedAttempts label config.retryDelay (j + 1) := by
      rw [failedAttempts_succ_append]; simp
    rw [hshape]
    have := ih (j + 1) (by omega) hfail (by rw [← hlast]; congr 1; omega)
    have hidx : j + 1 + m = j + (m + 1) := by omega
    rw [hidx] at this
    exact_mod_cast this

/-! ## Programs only append effects -/

theorem emits_pure {α : Type} {P : Event → Prop} (a : α) : Emits P (pure a : Prog α) :=
  fun t => ⟨[], by simp, by simp⟩

theorem emits_throw {α : Type} {P : Event → Prop} (e : JSError) :
    Emits P (Prog.throw e : Prog α) :=
  fun t => ⟨[], by simp [Prog.throw], by simp⟩

theorem emits_answer {α : Type} {P : Event → Prop} (f : Trace → α) : Emits P (answer f) :=
  fun t => ⟨[], by simp [answer], by simp⟩

theorem emits_emit {P : Event → Prop} {e : Event} (h : P e) : Emits P (emit e) :=
  fun t => ⟨[e], by simp [emit], by simpa using h⟩

theorem emits_delay {P : Event → Prop} {ms : JSNum} (h : P (.delay ms)) : Emits P (delay ms) :=
  emits_emit h

theorem emits_call {P : Event → Prop} {s : Surface} {e : Event} (h : P e) :
    Emits P (call s e) := by
  intro t
  refine ⟨[e], ?_, by simpa using h⟩
  unfold call
  split <;> rfl

theorem emits_evaluate_of {α : Type} {P : Event → Prop} {s : Surface} {script : Script}
    {closure : Dom → Except JSError α × List Target}
    (h : P (.evaluate script)) (hclick : ∀ d, ∀ target ∈ (closure d).2, P (.domClick target)) :
    Emits P (evaluate s script closure) := by
  intro t
  unfold evaluate
  split
  · exact ⟨[.evaluate script], rfl, by simpa using h⟩
  · refine ⟨.evaluate script :: (closure (s.dom (t ++ [.evaluate script]))).2.map .domClick,
      by simp, ?_⟩
    intro e he
    simp only [List.mem_cons, List.mem_map] at he
    rcases he with rfl | ⟨target, htarget, rfl⟩
    · exact h
    · exact hclick _ target htarget

theorem emits_evaluate {α : Type} {P : Event → Prop} {s : Surface} {script : Script}
    {closure : Dom → Except JSError α × List Target}
    (h : P (.evaluate script)) (hclick : ∀ target, P (.domClick target)) :
    Emits P (evaluate s script closure) :=
  emits_evaluate_of h fun _ target _ => hclick target

theorem emits_bind {α β : Type} {P : Event → Prop} {p : Prog α} {f : α → Prog β}
    (hp : Emits P p) (hf : ∀ a, Emits P (f a)) : Emits P (p >>= f) := by
  intro t
  obtain ⟨added, h1, h2⟩ := hp t
  rcases hpt : p t with ⟨r, t1⟩
  rw [hpt] at h1
  simp only at h1
  subst h1
  cases r with
  | error e =>
    refine ⟨added, ?_, h2⟩
    simp [Prog.bind, hpt]
  | ok a =>
    obtain ⟨added2, h3, h4⟩ := hf a (t ++ added)
    refine ⟨added ++ added2, ?_, ?_⟩
    · simp [Prog.bind, hpt, h3]
    · intro e he
      rcases List.mem_append.mp he with he | he
      · exact h2 e he
      · exact h4 e he

theorem emits_resolvedOrNull {P : Event → Prop} {p : Prog Unit} (hp : Emits P p) :
    Emits P (resolvedOrNull p) := by
  intro t
  obtain ⟨added, h1, h2⟩ := hp t
  refine ⟨added, ?_, h2⟩
  rw [← h1]
  unfold resolvedOrNull
  split <;> simp_all

theorem emits_withRetryLoop {α : Type} {P : Event → Prop} {config : Config} {operation : Prog α}
    (hop : Emits P operation) (hd : P (.delay config.retryDelay)) (attempt : Int) :
    Emits P (withRetryLoop config operation attempt) := by
  cases hN : config.retryAttempts with
  | nan =>
    intro t
    exact ⟨[], by rw [withRetryLoop_exit _ _ _ _ (by simp [hN, JSNum.le])]; simp, by simp⟩
  | int n =>
    suffices h : ∀ (m : Nat) (a : Int), (n + 1 - a).toNat = m →
        Emits P (withRetryLoop config operation a) from h _ attempt rfl
    intro m
    induction m using Nat.strong_induction_on with
    | _ m ih =>
      intro a ham t
      by_cases hle : a ≤ n
      · have hguard : JSNum.le (.int a) config.retryAttempts = true := by
          simp [hN, JSNum.le, hle]
        obtain ⟨added, h1, h2⟩ := hop t
        rcases hpt : operation t with ⟨r, t1⟩
        rw [hpt] at h1
        simp only at h1
        subst h1
        cases r with
        | ok r =>
          exact ⟨added, by rw [withRetryLoop_ok _ _ _ _ _ _ hguard hpt], h2⟩
        | error e =>
          by_cases hlast : a = n
          · exact ⟨added, by
              rw [withRetryLoop_last _ _ _ _ _ _ hguard hpt (by simp [hN, JSNum.strictEq, hlast])],
              h2⟩
          · obtain ⟨added2, h3, h4⟩ := ih ((n + 1 - (a + 1)).toNat) (by omega) (a + 1) rfl
              (t ++ added ++ [.delay config.retryDelay])
            refine ⟨added ++ [.delay config.retryDelay] ++ added2, ?_, ?_⟩
            · rw [withRetryLoop_retry _ _ _ _ _ _ hguard hpt
                (by simp [hN, JSNum.strictEq, hlast]), h3]
              simp
            · intro e he
              simp only [List.mem_append, List.mem_singleton] at he
              rcases he with (he | he) | he
              · exact h2 e he
              · exact he ▸ hd
              · exact h4 e he
      · exact ⟨[], by
          rw [withRetryLoop_exit _ _ _ _ (by simp [hN, JSNum.le, hle])]; simp, by simp⟩

theorem emits_withRetry {α : Type} {P : Event → Prop} {config : Config} {operation : Prog α}
    (hop : Emits P operation) (hd : P (.delay config.retryDelay)) :
    Emits P (withRetry config operation) :=
  emits_withRetryLoop hop hd 1

theorem emits_mono {α : Type} {P Q : Event → Prop} {p : Prog α} (hp : Emits P p)
    (h : ∀ e, P e → Q e) : Emits Q p := by
  intro t
  obtain ⟨added, h1, h2⟩ := hp t
  exact ⟨added, h1, fun e he => h e (h2 e he)⟩

theorem emits_run {α : Type} {P : Event → Prop} {p : Prog α} (hp : Emits P p)
    {t t1 : Trace} {r : Except JSError α} (h : p t = (r, t1)) :
    ∃ added, t1 = t ++ added ∧ ∀ e ∈ added, P e := by
  obtain ⟨added, h1, h2⟩ := hp t
  rw [h] at h1
  exact ⟨added, h1, h2⟩

theorem emits_openDialog (s : Surface) (stack : Stack) :
    Emits (fun e => e.isPage = true) (openDialog s stack) := by
  unfold openDialog
  repeat' first
    | apply emits_bind
    | apply emits_call
    | apply emits_delay
    | apply emits_evaluate
    | intro _
  all_goals rfl

theorem emits_activateRepull (s : Surface) :
    Emits (fun e => e.isPage = true) (activateRepull s) := by
  unfold activateRepull
  repeat' first
    | apply emits_bind
    | exact emits_throw _
    | apply emits_delay
    | apply emits_evaluate
    | split
    | intro _
  all_goals rfl

theorem emits_confirmUpdate (s : Surface) :
    Emits (fun e => e.isPage = true) (confirmUpdate s) := by
  unfold confirmUpdate
  repeat' first
    | apply emits_bind
    | exact emits_throw _
    | exact emits_pure _
    | apply emits_evaluate
    | split
    | intro _
  all_goals rfl

theorem emits_observeOutcome (s : Surface) :
    Emits (fun e => e.isPage = true) (observeOutcome s) := by
  unfold observeOutcome readToastText
  repeat' first
    | apply emits_bind
    | exact emits_throw _
    | apply emits_resolvedOrNull
    | apply emits_call
    | apply emits_emit
    | exact emits_answer _
    | apply emits_evaluate
    | split
    | intro _
  all_goals rfl

theorem emits_updateAttempt (s : Surface) (stack : Stack) :
    Emits (fun e => e.isPage = true) (updateAttempt s stack) := by
  unfold updateAttempt reachConfirmed
  repeat' first
    | exact emits_openDialog _ _
    | exact emits_activateRepull _
    | exact emits_confirmUpdate _
    | exact emits_observeOutcome _
    | exact emits_pure _
    | apply emits_bind
    | intro _

theorem emits_mainEnumerate (config : Config) (s : Surface) :
    Emits (fun e => e.isPage = true) (mainEnumerate config s) := by
  unfold mainEnumerate evalEnvironments
  repeat' first
    | apply emits_bind
    | apply emits_withRetry
    | apply emits_call
    | exact emits_answer _
    | intro _
  all_goals rfl

theorem emits_discoverStacks (config : Config) (s : Surface) (targetEnv : Environment) :
    Emits (fun e => e.isPage = true) (discoverStacks config s targetEnv) := by
  unfold discoverStacks evalStacks
  repeat' first
    | apply emits_bind
    | apply emits_withRetry
    | apply emits_call
    | exact emits_answer _
    | intro _
  all_goals rfl

theorem emits_mainDiscover (config : Config) (s : Surface) :
    Emits (fun e => e.isPage = true) (mainDiscover config s) := by
  unfold mainDiscover
  apply emits_bind (emits_mainEnumerate config s)
  intro environments
  split
  · exact emits_throw _
  · exact emits_discoverStacks config s _

theorem emits_mainLaunch (config : Config) (s : Surface) :
    Emits (fun e => e = .launch config.isProd) (mainLaunch config s) := by
  unfold mainLaunch
  split
  · exact emits_throw _
  · exact emits_call rfl

/-- The events of `updateStack`: its entry mark and the events of its attempts. -/
theorem emits_updateStack (config : Config) (s : Surface) (stack : Option Stack) :
    Emits (fun e => e = .updateStack stack ∨ e.isPage = true) (updateStack config s stack) := by
  unfold updateStack
  apply emits_bind (emits_emit (Or.inl rfl))
  intro _
  split
  · exact emits_throw _
  · apply emits_bind
    · exact emits_withRetry (emits_mono (emits_updateAttempt s _) fun e he => Or.inr he) (Or.inr rfl)
    · intro _
      exact emits_delay (Or.inr rfl)

theorem emits_updateAll (config : Config) (s : Surface) (stackList : Option (List Stack))
    (names : List String) :
    Emits (fun e => (∃ stack, e = .updateStack stack) ∨ e.isPage = true)
      (updateAll config s stackList names) := by
  induction names with
  | nil => exact emits_pure _
  | cons name rest ih =>
    unfold updateAll
    split
    · exact emits_throw _
    · apply emits_bind
      · exact emits_mono (emits_updateStack config s _) fun e he =>
          he.elim (fun h => Or.inl ⟨_, h⟩) Or.inr
      · intro _
        exact ih

theorem emits_mainSession (config : Config) (s : Surface) :
    Emits (fun e => (∃ stack, e = .updateStack stack) ∨ e.isPage = true)
      (mainSession config s) := by
  unfold mainSession
  apply emits_bind (emits_mono (emits_mainDiscover config s) fun e he => Or.inr he)
  intro stackList
  split
  · exact emits_throw _
  · exact emits_updateAll config s stackList _

/-! ## The retry executor: success after `k` failures, and exhaustion -/

/-- C1. For an attempt limit `n ≥ 1`, `k < n`, and an operation whose first `k`
invocations fail and whose next one succeeds with `r`, `withRetry` returns `r`; the
effects are exactly `k` times an invocation followed by a delay of
`config.retryDelay`, then the successful invocation: `k + 1` invocations, `k` delays,
nothing after the success. -/
theorem withRetry_success_after_failures {α : Type} (config : Config) (n : Int)
    (hn : config.retryAttempts = .int n) (_h1 : 1 ≤ n) (k : Nat) (hk : (k : Int) < n)
    (label : String) (outcomes : Nat → Except JSError α) (r : α)
    (hfail : ∀ i, i < k → ∃ e, outcomes i = .error e) (hok : outcomes k = .ok r) :
    withRetry config (scripted label outcomes) [] =
        (.ok (some r), failedAttempts label config.retryDelay k ++ [.invoke label]) ∧
      (withRetry config (scripted label outcomes) []).2.count (.invoke label) = k + 1 ∧
      (withRetry config (scripted label outcomes) []).2.count (.delay config.retryDelay) = k ∧
      ∀ e ∈ (withRetry config (scripted label outcomes) []).2,
        e = .invoke label ∨ e = .delay config.retryDelay := by
  have hrun : withRetry config (scripted label outcomes) [] =
      (.ok (some r), failedAttempts label config.retryDelay k ++ [.invoke label]) := by
    have := withRetryLoop_scripted_success config n hn label outcomes r k 0
      (by simpa using hk) (by simpa using hfail) (by simpa using hok)
    simpa [withRetry, failedAttempts] using this
  refine ⟨hrun, ?_, ?_, ?_⟩
  · rw [hrun]; simp [List.count_append, count_invoke_failedAttempts]
  · rw [hrun]; simp [List.count_append, count_delay_failedAttempts]
  · rw [hrun]
    intro e he
    simp only [List.mem_append, List.mem_singleton] at he
    rcases he with he | he
    · clear hrun hfail hok hk
      induction k with
      | zero => simp [failedAttempts] at he
      | succ k ih =>
        simp only [failedAttempts, List.mem_cons] at he
        rcases he with he | he | he
        · exact Or.inl he
        · exact Or.inr he
        · exact ih he
    · exact Or.inl he

/-- C1 at a concrete input: three attempts allowed, two timeouts, then success. -/
theorem withRetry_success_after_failures_witness :
    loadConfig envThreeAttempts = .ok configThreeAttempts ∧
      withRetry configThreeAttempts (scripted "worker" failsTwice) [] =
        (.ok (some "deployed"),
          [.invoke "worker", .delay (.int 5000), .invoke "worker", .delay (.int 5000),
            .invoke "worker"]) :=
  ⟨by decide,
    (withRetry_success_after_failures configThreeAttempts 3 rfl (by decide) 2 (by decide)
      "worker" failsTwice "deployed"
      (fun i hi => ⟨mkError "timeout", by simp [failsTwice, hi]⟩) rfl).1⟩

/-- C2 as stated fails for `RETRY_ATTEMPTS=0`: the limit parses to `0`, the loop body never
runs, and `withRetry` returns `undefined` normally although the operation would fail on
every invocation. -/
theorem withRetry_zero_attempts_returns_normally :
    (loadConfig envZeroAttempts).map
        (fun config => (config.retryAttempts,
          withRetry config (scripted "login" alwaysFails) [])) =
      .ok (.int 0, (.ok none, [])) := by
  decide

/-- C2, amended. For an attempt limit `n ≥ 1` and an operation that fails on every
invocation, `withRetry` invokes it exactly `n` times, with a delay after each attempt but
the last, and then raises the failure of the `n`-th invocation. -/
theorem withRetry_exhaustion {α : Type} (config : Config) (n : Nat)
    (hn : config.retryAttempts = .int n) (h1 : 1 ≤ n)
    (label : String) (outcomes : Nat → Except JSError α)
    (hfail : ∀ i, ∃ e, outcomes i = .error e) :
    ∃ e, outcomes (n - 1) = .error e ∧
      withRetry config (scripted label outcomes) [] =
        (.error e, failedAttempts label config.retryDelay (n - 1) ++ [.invoke label]) ∧
      (withRetry config (scripted label outcomes) []).2.count (.invoke label) = n := by
  obtain ⟨e, he⟩ := hfail (n - 1)
  have hrun : withRetry config (scripted label outcomes) [] =
      (.error e, failedAttempts label config.retryDelay (n - 1) ++ [.invoke label]) := by
    have := withRetryLoop_scripted_exhaust config n hn label outcomes e (n - 1) 0
      (by omega) hfail (by simpa using he)
    simpa [withRetry, failedAttempts] using this
  refine ⟨e, he, hrun, ?_⟩
  rw [hrun]
  simp only [List.count_append, count_invoke_failedAttempts, List.count_singleton, beq_self_eq_true, if_true]
  omega

/-- C2, amended, at a concrete input: three attempts, three timeouts, the third is raised. -/
theorem withRetry_exhaustion_witness :
    ∃ e, alwaysFails 2 = .error e ∧
      withRetry configThreeAttempts (scripted "login" alwaysFails) [] =
        (.error e, failedAttempts "login" (.int 5000) 2 ++ [.invoke "login"]) ∧
      (withRetry configThreeAttempts (scripted "login" alwaysFails) []).2.count
        (.invoke "login") = 3 :=
  withRetry_exhaustion configThreeAttempts 3 rfl (by decide) "login" alwaysFails
    (fun i => ⟨_, rfl⟩)

/-! ## Configuration -/

theorem splitChars_ne_nil (sep : Char) (cs : List Char) : splitChars sep cs ≠ [] := by
  cases cs with
  | nil => simp [splitChars]
  | cons c cs =>
    unfold splitChars
    split
    · simp
    · split <;> simp

/-- No process environment yields an empty `stacksNames`: `split` always returns at least
one element, so the length test of `validateConfig` never fires after `loadConfig`. -/
theorem loadConfig_stacksNames_ne_nil (env : ProcessEnv) (config : Config)
    (h : loadConfig env = .ok config) : config.stacksNames ≠ [] := by
  unfold loadConfig at h
  split at h
  · cases h
  · injection h with h
    subst h
    simp [split, splitChars_ne_nil]

/-- C5 at the failing input `PORTAINER_STACKS=""` with user, password and environment
set: the requested list is `[""]`, not empty, and `validateConfig` accepts it. -/
theorem loadConfig_empty_stacks_accepted :
    (loadConfig envEmptyStacks).map
        (fun config => (config.stacksNames, validateConfig config)) =
      .ok ([""], .ok ()) := by
  decide

theorem validateConfig_filter (config : Config) :
    (["username", "password", "stacksNames", "environment"].filter
        (fun field => !(config.field field).truthy)) = missingSettings config := by
  have h : ∀ v, (!(FieldValue.ofString v).truthy) = absentOrEmpty v := by
    intro v
    cases v <;> simp [FieldValue.ofString, FieldValue.truthy, absentOrEmpty]
  have hu : config.field "username" = .ofString config.username := by simp [Config.field]
  have hp : config.field "password" = .ofString config.password := by simp [Config.field]
  have hs : config.field "stacksNames" = .arr config.stacksNames := by simp [Config.field]
  have he : config.field "environment" = .ofString config.environment := by
    simp [Config.field]
  have ha : (FieldValue.arr config.stacksNames).truthy = true := rfl
  simp only [List.filter, hu, hp, hs, he, h, ha, Bool.not_true, missingSettings]
  cases absentOrEmpty config.username <;> cases absentOrEmpty config.password <;>
    cases absentOrEmpty config.environment <;> rfl

theorem main_of_invalid_config (config : Config) (s : Surface) (e : JSError)
    (h : validateConfig config = .error e) : main config s [] = (.error e, []) := by
  simp [main, mainLaunch, h, Prog.throw]

/-- C6 at the failing inputs. Without `PORTAINER_STACKS` the module throws a `TypeError`
while it builds `config`, so `validateConfig` never reports the missing stack names; with
`PORTAINER_STACKS=""` and no `PORTAINER_USERNAME`, `validateConfig` names `username` only;
with `PORTAINER_STACKS=""` and the other three set it raises nothing. -/
theorem validateConfig_stack_names_unreported :
    loadConfig envUnsetStacks =
        .error ⟨"TypeError", "Cannot read properties of undefined (reading 'split')"⟩ ∧
      (loadConfig envNoUserEmptyStacks).map validateConfig =
        .ok (.error (mkError "Missing required environment variables: username")) ∧
      (loadConfig envEmptyStacks).map validateConfig = .ok (.ok ()) := by
  decide

/-- The part of the required-field validation that the code does perform: when the
username, the password or the environment name is absent or empty, `validateConfig`
fails with `Missing required environment variables: ` followed by exactly those of the
three that are missing, and `main` fails with that error before any request to the
browser; when the three are present and the stack list is not empty, it raises nothing. -/
theorem validateConfig_missing_settings (config : Config) :
    (missingSettings config ≠ [] →
      validateConfig config = .error (mkError
        ("Missing required environment variables: " ++ join (missingSettings config) ", ")) ∧
      ∀ s, main config s [] = (.error (mkError
        ("Missing required environment variables: " ++ join (missingSettings config) ", ")),
        [])) ∧
    (missingSettings config = [] → config.stacksNames ≠ [] →
      validateConfig config = .ok ()) := by
  refine ⟨fun hm => ?_, fun hm hs => ?_⟩
  · have hv : validateConfig config = .error (mkError
        ("Missing required environment variables: " ++ join (missingSettings config) ", ")) := by
      unfold validateConfig
      simp only [validateConfig_filter]
      rw [if_pos (List.length_pos.mpr hm)]
    exact ⟨hv, fun s => main_of_invalid_config config s _ hv⟩
  · unfold validateConfig
    simp only [validateConfig_filter, hm]
    have : ¬ config.stacksNames.length ≤ 0 := by
      have := List.length_pos.mpr hs
      omega
    simp [this]

/-- A configuration without password and with an empty environment name is rejected
before any request to the browser, and the complete configuration is accepted. -/
theorem validateConfig_missing_settings_example :
    (∀ s, main configNoPassword s [] = (.error (mkError
        "Missing required environment variables: password, environment"), [])) ∧
      validateConfig configThreeAttempts = .ok () :=
  ⟨((validateConfig_missing_settings configNoPassword).1 (by decide)).2,
    (validateConfig_missing_settings configThreeAttempts).2 (by decide) (by decide)⟩

/-! ## The run coordinator -/

theorem mainLaunch_ok (config : Config) (s : Surface) (t1 : Trace)
    (h : mainLaunch config s [] = (.ok (), t1)) :
    validateConfig config = .ok () ∧ t1 = [.launch config.isProd] := by
  cases hv : validateConfig config with
  | error e => simp [mainLaunch, hv, Prog.throw] at h
  | ok u =>
    refine ⟨rfl, ?_⟩
    simp only [mainLaunch, hv, call] at h
    split at h <;> simp at h
    exact h.symm

theorem main_of_session (config : Config) (s : Surface) (t1 t2 : Trace)
    (outcome : Except JSError Unit)
    (hlaunch : mainLaunch config s [] = (.ok (), t1))
    (hsession : mainSession config s t1 = (outcome, t2)) :
    main config s [] = (afterClose s t2 outcome, t2 ++ [.close]) := by
  simp only [main, hlaunch, hsession, call, afterClose]
  cases s.rejects (t2 ++ [.close]) <;> rfl

theorem afterClose_of_resolved (s : Surface) (t : Trace) (outcome : Except JSError Unit)
    (h : s.rejects (t ++ [.close]) = none) : afterClose s t outcome = outcome := by
  simp [afterClose, h]

theorem afterClose_error (s : Surface) (t : Trace) (e : JSError) :
    ∃ e2, afterClose s t (.error e) = .error e2 := by
  unfold afterClose
  cases s.rejects (t ++ [.close]) with
  | none => exact ⟨e, rfl⟩
  | some closeError => exact ⟨closeError, rfl⟩

theorem started_append (a b : Trace) : started (a ++ b) = started a ++ started b := by
  induction a with
  | nil => rfl
  | cons e a ih => cases e <;> simp [started, ih]

theorem started_of_isPage (added : Trace) (h : ∀ e ∈ added, e.isPage = true) :
    started added = [] := by
  induction added with
  | nil => rfl
  | cons e rest ih =>
    have he := h e (List.mem_cons_self _ _)
    have hrest := ih (fun x hx => h x (List.mem_cons_of_mem _ hx))
    cases e <;> simp_all [started, Event.isPage]

/-- C7 as stated fails when `browser.close()` itself is refused: the console is
unreachable, the `try` block fails with the navigation error after three attempts, the
`finally` block's `browser.close()` rejects, and `main` raises that rejection instead of
the original error. -/
theorem main_close_rejection_replaces_error :
    (mainSession configThreeAttempts crashedSurface [.launch true]).1 =
        .error (mkError "net::ERR_CONNECTION_REFUSED") ∧
      (main configThreeAttempts crashedSurface []).1 =
        .error (mkError "Protocol error (Browser.close): Target closed") ∧
      (main configThreeAttempts crashedSurface []).2.getLast? = some .close := by
  decide

/-- C7, amended. Whenever `puppeteer.launch` resolved, `main` ends by calling
`browser.close()`: `close` is the last effect of the run and occurs exactly once, on every
exit path of the `try` block.  When `browser.close()` resolves, the outcome of `main` is
the outcome of its `try` block, so a failure raised there is the failure `main` raises;
when `browser.close()` rejects, `main` raises that rejection instead. -/
theorem main_releases_browser (config : Config) (s : Surface) (t1 : Trace)
    (hlaunch : mainLaunch config s [] = (.ok (), t1)) :
    (main config s []).2 = (mainSession config s t1).2 ++ [.close] ∧
      Event.close ∉ (mainSession config s t1).2 ∧
      (main config s []).2.count .close = 1 ∧
      (s.rejects ((mainSession config s t1).2 ++ [.close]) = none →
        (main config s []).1 = (mainSession config s t1).1) ∧
      (∀ closeError, s.rejects ((mainSession config s t1).2 ++ [.close]) = some closeError →
        (main config s []).1 = .error closeError) := by
  have hmain : main config s [] =
      (afterClose s (mainSession config s t1).2 (mainSession config s t1).1,
        (mainSession config s t1).2 ++ [.close]) :=
    main_of_session config s t1 (mainSession config s t1).2 (mainSession config s t1).1
      hlaunch rfl
  obtain ⟨_, ht1⟩ := mainLaunch_ok config s t1 hlaunch
  obtain ⟨added, hadd, hP⟩ := emits_mainSession config s t1
  have hno : Event.close ∉ (mainSession config s t1).2 := by
    rw [hadd, ht1]
    intro hmem
    simp only [List.mem_append, List.mem_singleton] at hmem
    rcases hmem with hmem | hmem
    · cases hmem
    · rcases hP _ hmem with ⟨stack, hst⟩ | hpage
      · cases hst
      · simp [Event.isPage] at hpage
  refine ⟨by rw [hmain], hno, ?_, fun h => ?_, fun closeError h => ?_⟩
  · rw [hmain]
    simp [List.count_append, List.count_eq_zero_of_not_mem hno]
  · rw [hmain]
    exact afterClose_of_resolved s _ _ h
  · rw [hmain]
    simp [afterClose, h]

/-- C7, amended, at a concrete input: the console is unreachable, the navigation fails
three times, `browser.close()` resolves, and `main` raises the navigation failure after
closing the browser. -/
theorem main_releases_browser_witness :
    (main configThreeAttempts offlineSurface []).2.count .close = 1 ∧
      (main configThreeAttempts offlineSurface []).1 =
        .error (mkError "net::ERR_CONNECTION_REFUSED") :=
  ⟨(main_releases_browser configThreeAttempts offlineSurface [.launch true]
      (by decide)).2.2.1,
    ((main_releases_browser configThreeAttempts offlineSurface [.launch true]
      (by decide)).2.2.2.1 (by decide)).trans (by decide)⟩

theorem mainSession_of_discover (config : Config) (s : Surface) (t1 t2 : Trace)
    (stackList : Option (List Stack))
    (h : mainDiscover config s t1 = (.ok stackList, t2)) :
    mainSession config s t1 =
      match validateStacks config stackList with
      | .error e => (.error e, t2)
      | .ok () => updateAll config s stackList config.stacksNames t2 := by
  simp only [mainSession, bind_apply, bind_ok h]
  cases validateStacks config stackList <;> rfl

theorem missingStacks_some (stackList : List Stack) (names : List String) :
    missingStacks (some stackList) names =
      .ok (names.filter (fun name => decide (∀ st ∈ stackList, st.name ≠ name))) := by
  show Except.ok (names.filter
      (fun name => !(stackList.find? (fun s => decide (s.name = name))).isSome)) = _
  congr 2
  funext name
  cases hfind : stackList.find? (fun s => decide (s.name = name)) with
  | none =>
    have := List.find?_eq_none.mp hfind
    simp only [Option.isSome_none, Bool.not_false]
    symm
    simpa using this
  | some st =>
    have hp := (List.find?_eq_some.mp hfind).1
    have hmem := List.mem_of_find?_eq_some hfind
    simp only [Option.isSome_some, Bool.not_true]
    symm
    simp only [decide_eq_false_iff_not]
    intro hall
    exact hall st hmem (by simpa using hp)

/-- C3. Once the stacks are discovered: if some requested name is the name of no discovered
stack, the `try` block of `main` fails with `Stacks not found: ` followed by all absent
requested names in requested order joined by `, `, nothing but the closing of the browser
follows the discovery, `updateStack` is entered for no stack, and `main` fails, with that
error whenever `browser.close()` resolves; if every requested name is found, the check
raises nothing. -/
theorem main_missing_stacks (config : Config) (s : Surface) (t1 t2 : Trace)
    (stackList : List Stack)
    (hlaunch : mainLaunch config s [] = (.ok (), t1))
    (hdisc : mainDiscover config s t1 = (.ok (some stackList), t2)) :
    ((∃ name ∈ config.stacksNames, ∀ st ∈ stackList, st.name ≠ name) →
      mainSession config s t1 =
        (.error (mkError ("Stacks not found: " ++
          join (config.stacksNames.filter
            (fun name => decide (∀ st ∈ stackList, st.name ≠ name))) ", ")), t2) ∧
      main config s [] =
        (afterClose s t2 (.error (mkError ("Stacks not found: " ++
          join (config.stacksNames.filter
            (fun name => decide (∀ st ∈ stackList, st.name ≠ name))) ", "))),
          t2 ++ [.close]) ∧
      (s.rejects (t2 ++ [.close]) = none →
        main config s [] =
          (.error (mkError ("Stacks not found: " ++
            join (config.stacksNames.filter
              (fun name => decide (∀ st ∈ stackList, st.name ≠ name))) ", ")),
            t2 ++ [.close])) ∧
      (∃ e, (main config s []).1 = .error e) ∧
      started (main config s []).2 = []) ∧
    ((∀ name ∈ config.stacksNames, ∃ st ∈ stackList, st.name = name) →
      validateStacks config (some stackList) = .ok ()) := by
  constructor
  · rintro ⟨name, hname, habsent⟩
    have hne : config.stacksNames.filter
        (fun name => decide (∀ st ∈ stackList, st.name ≠ name)) ≠ [] := by
      intro hnil
      have hmem : name ∈ config.stacksNames.filter
          (fun name => decide (∀ st ∈ stackList, st.name ≠ name)) :=
        List.mem_filter.mpr ⟨hname, by simpa using habsent⟩
      rw [hnil] at hmem
      cases hmem
    have hval : validateStacks config (some stackList) =
        .error (mkError ("Stacks not found: " ++
          join (config.stacksNames.filter
            (fun name => decide (∀ st ∈ stackList, st.name ≠ name))) ", ")) := by
      simp only [validateStacks, missingStacks_some]
      rw [if_pos (List.length_pos.mpr hne)]
    have hsess := mainSession_of_discover config s t1 t2 _ hdisc
    rw [hval] at hsess
    have hrun := main_of_session config s t1 t2 _ hlaunch hsess
    refine ⟨hsess, hrun, fun hclose => ?_, ?_, ?_⟩
    · rw [hrun, afterClose_of_resolved s t2 _ hclose]
    · rw [hrun]
      exact afterClose_error s t2 _
    · rw [hrun]
      obtain ⟨_, ht1⟩ := mainLaunch_ok config s t1 hlaunch
      obtain ⟨added, hadd, hP⟩ := emits_run (emits_mainDiscover config s) hdisc
      subst ht1 hadd
      simp [started_append, started, started_of_isPage added hP]
  · intro hall
    simp only [validateStacks, missingStacks_some]
    have hnil : config.stacksNames.filter
        (fun name => decide (∀ st ∈ stackList, st.name ≠ name)) = [] := by
      rw [List.filter_eq_nil_iff]
      intro name hname
      obtain ⟨st, hst, hn⟩ := hall name hname
      simp only [decide_eq_true_eq]
      intro hcontra
      exact hcontra st hst hn
    rw [hnil]
    rfl

/-- C3 at a concrete input: `web, ghost, web, phantom` are requested, `web` and `worker`
exist; the run fails naming `ghost` and `phantom`, and `web` is never navigated to. -/
theorem main_missing_stacks_witness :
    main configGhost consoleSurface [] =
      (.error (mkError "Stacks not found: ghost, phantom"), discoveryTrace ++ [.close]) :=
  (((main_missing_stacks configGhost consoleSurface [.launch true] discoveryTrace
      [⟨"web", "/stacks/web"⟩, ⟨"worker", "/stacks/worker"⟩] (by decide) (by decide)).1
    ⟨"ghost", by decide, by decide⟩).2.2.1 (by decide)).trans (by decide)

theorem environment_of_valid (config : Config) (h : validateConfig config = .ok ()) :
    ∃ name, config.environment = some name := by
  unfold validateConfig at h
  simp only [validateConfig_filter] at h
  split at h
  · cases h
  · rename_i hlen
    have hnil : missingSettings config = [] := by
      cases hm : missingSettings config with
      | nil => rfl
      | cons a l => simp [hm] at hlen
    cases henv : config.environment with
    | some name => exact ⟨name, rfl⟩
    | none => simp [missingSettings, henv, absentOrEmpty] at hnil

/-- The login and enumeration phase performs no stack-level request: it navigates only to
the configured URL, never lists stacks and never enters `updateStack`. -/
theorem emits_mainEnumerate_login (config : Config) (s : Surface) :
    Emits (fun e => e ≠ .evalStacks ∧ (∀ st, e ≠ .updateStack st) ∧ e ≠ .launch config.isProd ∧
        e ≠ .close ∧ ∀ url, e = .goto url → url = config.url)
      (mainEnumerate config s) := by
  unfold mainEnumerate evalEnvironments
  repeat' first
    | exact emits_answer _
    | apply emits_bind
    | apply emits_withRetry
    | apply emits_call
    | intro _
  all_goals simp

theorem prefix_of_emits {α : Type} {P : Event → Prop} {p : Prog α} (hp : Emits P p)
    (t : Trace) : t <+: (p t).2 := by
  obtain ⟨added, h, _⟩ := hp t
  exact ⟨added, h.symm⟩

theorem prefix_bind {α β : Type} {P : Event → Prop} (p : Prog α) {f : α → Prog β}
    (hf : ∀ a, Emits P (f a)) (t : Trace) : (p t).2 <+: ((p >>= f) t).2 := by
  rcases hpt : p t with ⟨r, t1⟩
  cases r with
  | error e => simp [Prog.bind, hpt]
  | ok a =>
    simp only [bind_apply, Prog.bind, hpt]
    exact prefix_of_emits (hf a) t1

theorem prefix_discoverStacks (config : Config) (s : Surface) (targetEnv : Environment)
    (t : Trace) :
    (t ++ [.goto targetEnv.stacksLink]) <+: (discoverStacks config s targetEnv t).2 := by
  have hcall : (call s (.goto targetEnv.stacksLink) t).2 = t ++ [.goto targetEnv.stacksLink] := by
    unfold call
    split <;> rfl
  rw [← hcall]
  unfold discoverStacks
  apply prefix_bind (P := fun _ => True)
  intro _
  unfold evalStacks
  repeat' first
    | exact emits_answer _
    | apply emits_bind
    | apply emits_withRetry
    | apply emits_call
    | intro _
  all_goals trivial

theorem prefix_mainSession (config : Config) (s : Surface) (t : Trace) :
    (mainDiscover config s t).2 <+: (mainSession config s t).2 := by
  unfold mainSession
  apply prefix_bind (P := fun _ => True)
  intro stackList
  split
  · exact emits_throw _
  · exact emits_mono (emits_updateAll config s stackList _) fun _ _ => trivial

/-- C8. Once the environments are enumerated: if none has exactly the configured name,
the `try` block of `main` fails with `Environment <name> not found`, nothing but the
closing of the browser follows the enumeration (no retry), the run contains no navigation
other than to the configured URL, no stack listing and no entry into `updateStack`, and
`main` fails, with that error whenever `browser.close()` resolves; otherwise the first
environment with exactly that name is selected and its stacks view is navigated to. -/
theorem main_environment_resolution (config : Config) (s : Surface) (t1 t2 : Trace)
    (environments : List Environment)
    (hlaunch : mainLaunch config s [] = (.ok (), t1))
    (henum : mainEnumerate config s t1 = (.ok (some environments), t2)) :
    ((∀ env ∈ environments, some env.name ≠ config.environment) →
      ∃ name, config.environment = some name ∧
        mainSession config s t1 =
          (.error (mkError ("Environment " ++ name ++ " not found")), t2) ∧
        main config s [] =
          (afterClose s t2 (.error (mkError ("Environment " ++ name ++ " not found"))),
            t2 ++ [.close]) ∧
        (s.rejects (t2 ++ [.close]) = none →
          main config s [] =
            (.error (mkError ("Environment " ++ name ++ " not found")), t2 ++ [.close])) ∧
        (∃ e, (main config s []).1 = .error e) ∧
        ∀ e ∈ (main config s []).2, e ≠ .evalStacks ∧ (∀ st, e ≠ .updateStack st) ∧
          ∀ url, e = .goto url → url = config.url) ∧
    (∀ pre target post, environments = pre ++ target :: post →
      (∀ env ∈ pre, some env.name ≠ config.environment) →
      some target.name = config.environment →
      resolveEnvironment config (some environments) = .ok target ∧
        (t2 ++ [.goto target.stacksLink]) <+: (main config s []).2) := by
  obtain ⟨hvalid, ht1⟩ := mainLaunch_ok config s t1 hlaunch
  have hrun : main config s [] =
      (afterClose s (mainSession config s t1).2 (mainSession config s t1).1,
        (mainSession config s t1).2 ++ [.close]) :=
    main_of_session config s t1 (mainSession config s t1).2 (mainSession config s t1).1
      hlaunch rfl
  constructor
  · intro hnone
    obtain ⟨name, hname⟩ := environment_of_valid config hvalid
    have hres : resolveEnvironment config (some environments) =
        .error (mkError ("Environment " ++ name ++ " not found")) := by
      have hfind : environments.find? (fun i => decide (some i.name = config.environment)) =
          none := by
        rw [List.find?_eq_none]
        intro env henv
        simpa using hnone env henv
      rw [hname] at hfind
      unfold resolveEnvironment
      simp only [hfind, hname, interpolate]
    have hdisc : mainDiscover config s t1 =
        (.error (mkError ("Environment " ++ name ++ " not found")), t2) := by
      simp [mainDiscover, Prog.bind, henum, hres, Prog.throw]
    have hsess : mainSession config s t1 =
        (.error (mkError ("Environment " ++ name ++ " not found")), t2) := by
      simp [mainSession, Prog.bind, hdisc]
    have hrun2 := main_of_session config s t1 t2 _ hlaunch hsess
    refine ⟨name, hname, hsess, hrun2, fun hclose => ?_, ?_, ?_⟩
    · rw [hrun2, afterClose_of_resolved s t2 _ hclose]
    · rw [hrun2]
      exact afterClose_error s t2 _
    · rw [hrun2]
      obtain ⟨added, hadd, hP⟩ := emits_run (emits_mainEnumerate_login config s) henum
      subst ht1 hadd
      intro e he
      simp only [List.mem_append, List.mem_singleton, List.mem_cons, List.not_mem_nil,
        or_false] at he
      rcases he with (he | he) | he
      · subst he
        simp
      · obtain ⟨h1, h2, _, _, h5⟩ := hP e he
        exact ⟨h1, h2, h5⟩
      · subst he
        simp
  · intro pre target post hsplit hpre htarget
    have hfind : environments.find? (fun i => decide (some i.name = config.environment)) =
        some target := by
      rw [List.find?_eq_some]
      refine ⟨by simpa using htarget, pre, post, hsplit, ?_⟩
      intro a ha
      simpa using hpre a ha
    have hres : resolveEnvironment config (some environments) = .ok target := by
      simp [resolveEnvironment, hfind]
    refine ⟨hres, ?_⟩
    rw [hrun]
    have hdisc : mainDiscover config s t1 = discoverStacks config s target t2 := by
      simp [mainDiscover, Prog.bind, henum, hres]
    have h1 := prefix_discoverStacks config s target t2
    have h2 := prefix_mainSession config s t1
    rw [hdisc] at h2
    exact (h1.trans h2).trans (List.prefix_append _ _)

/-- C8 at concrete inputs: `staging` is not among `primary, local`, so the run fails right
after the enumeration; `local` is the second environment and its stacks view is opened. -/
theorem main_environment_resolution_witness :
    main configStaging consoleSurface [] =
        (.error (mkError "Environment staging not found"), loginTrace ++ [.close]) ∧
      (loginTrace ++ [.goto "/#!/2/docker/stacks"]) <+:
        (main configThreeAttempts consoleSurface []).2 := by
  obtain ⟨name, hname, _, _, hrun, _⟩ :=
    (main_environment_resolution configStaging consoleSurface [.launch true] loginTrace
      [⟨"primary", "/#!/1/docker/dashboard", "/#!/1/docker/stacks"⟩,
        ⟨"local", "/#!/2/docker/dashboard", "/#!/2/docker/stacks"⟩]
      (by decide) (by decide)).1 (by decide)
  have hstaging : name = "staging" := by
    have : some "staging" = some name := hname
    injection this with this
    exact this.symm
  subst hstaging
  exact ⟨hrun (by decide),
    ((main_environment_resolution configThreeAttempts consoleSurface [.launch true] loginTrace
        [⟨"primary", "/#!/1/docker/dashboard", "/#!/1/docker/stacks"⟩,
          ⟨"local", "/#!/2/docker/dashboard", "/#!/2/docker/stacks"⟩]
        (by decide) (by decide)).2
      [⟨"primary", "/#!/1/docker/dashboard", "/#!/1/docker/stacks"⟩]
      ⟨"local", "/#!/2/docker/dashboard", "/#!/2/docker/stacks"⟩ [] rfl (by decide) rfl).2⟩

theorem updateStack_some (config : Config) (s : Surface) (st : Stack) (t : Trace) :
    updateStack config s (some st) t =
      match withRetry config (updateAttempt s st) (t ++ [.updateStack (some st)]) with
      | (.ok _, tB) => (.ok (), tB ++ [.delay (.int 3000)])
      | (.error e, tB) => (.error e, tB) := by
  simp only [updateStack, bind_apply, Prog.bind, emit, delay]
  rcases h : withRetry config (updateAttempt s st) (t ++ [.updateStack (some st)]) with ⟨r, tB⟩
  cases r <;> simp only [h]

theorem started_withRetry_updateAttempt (config : Config) (s : Surface) (st : Stack)
    (t : Trace) :
    started (withRetry config (updateAttempt s st) t).2 = started t := by
  have hemits : Emits (fun e => e.isPage = true) (withRetry config (updateAttempt s st)) :=
    emits_withRetry (emits_updateAttempt s st) rfl
  obtain ⟨added, hadd, hP⟩ := hemits t
  rw [hadd, started_append, started_of_isPage added hP]
  simp

theorem updateAll_cons (config : Config) (s : Surface) (stackList : List Stack)
    (name : String) (rest : List String) (st : Stack) (t : Trace)
    (hst : stackList.find? (fun st => decide (st.name = name)) = some st) :
    updateAll config s (some stackList) (name :: rest) t =
      Prog.bind (updateStack config s (some st))
        (fun _ => updateAll config s (some stackList) rest) t := by
  simp only [updateAll, findStack, hst]
  rfl

theorem workThrough_cons_ok (config : Config) (s : Surface) (stackList : List Stack)
    (name : String) (rest : List String) (st : Stack) (t tB : Trace) (r : Option Unit)
    (hst : stackList.find? (fun st => decide (st.name = name)) = some st)
    (hretry : withRetry config (updateAttempt s st) (t ++ [.updateStack (some st)]) =
      (.ok r, tB)) :
    workThrough config s stackList (name :: rest) t =
      workThrough config s stackList rest (tB ++ [.delay (.int 3000)]) := by
  simp only [workThrough, hst, hretry]

theorem started_after_retry (config : Config) (s : Surface) (st : Stack) (t tB : Trace)
    (r : Except JSError (Option Unit))
    (hretry : withRetry config (updateAttempt s st) (t ++ [.updateStack (some st)]) =
      (r, tB)) :
    started tB = started t ++ [some st] := by
  have := started_withRetry_updateAttempt config s st (t ++ [.updateStack (some st)])
  rw [hretry] at this
  simpa [started_append, started] using this

/-- When the stacks of `names` are worked through, the loop over them returns normally
with the same effects, and `updateStack` is entered once per name, in order. -/
theorem updateAll_of_workThrough (config : Config) (s : Surface) (stackList : List Stack) :
    ∀ (names : List String) (t tA : Trace),
      workThrough config s stackList names t = some tA →
      updateAll config s (some stackList) names t = (.ok (), tA) ∧
        started tA = started t ++ names.map
          (fun name => stackList.find? (fun st => decide (st.name = name))) := by
  intro names
  induction names with
  | nil =>
    intro t tA h
    simp only [workThrough, Option.some.injEq] at h
    subst h
    exact ⟨rfl, by simp⟩
  | cons name rest ih =>
    intro t tA h
    cases hst : stackList.find? (fun st => decide (st.name = name)) with
    | none => simp [workThrough, hst] at h
    | some st =>
      rcases hretry : withRetry config (updateAttempt s st) (t ++ [.updateStack (some st)])
        with ⟨r, tB⟩
      cases r with
      | error e => simp [workThrough, hst, hretry] at h
      | ok u =>
        rw [workThrough_cons_ok config s stackList name rest st t tB u hst hretry] at h
        obtain ⟨hrun, hstarted⟩ := ih (tB ++ [.delay (.int 3000)]) tA h
        have hup : updateStack config s (some st) t =
            (.ok (), tB ++ [.delay (.int 3000)]) := by
          rw [updateStack_some, hretry]
        refine ⟨by rw [updateAll_cons config s stackList name rest st t hst, bind_ok hup,
          hrun], ?_⟩
        rw [hstarted, started_append, started_after_retry config s st t tB _ hretry]
        simp [started, hst]

/-- When the stacks of `pre` are worked through and the retries of the next stack are
exhausted, the loop raises that failure at once: no later stack is entered. -/
theorem updateAll_of_failure (config : Config) (s : Surface) (stackList : List Stack)
    (name : String) (post : List String) (st : Stack) (e : JSError)
    (hst : stackList.find? (fun st => decide (st.name = name)) = some st) :
    ∀ (pre : List String) (t tA tB : Trace),
      workThrough config s stackList pre t = some tA →
      withRetry config (updateAttempt s st) (tA ++ [.updateStack (some st)]) =
        (.error e, tB) →
      updateAll config s (some stackList) (pre ++ name :: post) t = (.error e, tB) ∧
        started tB = started t ++ (pre ++ [name]).map
          (fun name => stackList.find? (fun st => decide (st.name = name))) := by
  intro pre
  induction pre with
  | nil =>
    intro t tA tB h hfail
    simp only [workThrough, Option.some.injEq] at h
    subst h
    have hup : updateStack config s (some st) t = (.error e, tB) := by
      rw [updateStack_some, hfail]
    refine ⟨by
      rw [List.nil_append, updateAll_cons config s stackList name post st t hst,
        bind_error hup], ?_⟩
    rw [started_after_retry config s st t tB _ hfail]
    simp [hst]
  | cons first pre ih =>
    intro t tA tB h hfail
    cases hfirst : stackList.find? (fun st => decide (st.name = first)) with
    | none => simp [workThrough, hfirst] at h
    | some st1 =>
      rcases hretry : withRetry config (updateAttempt s st1)
        (t ++ [.updateStack (some st1)]) with ⟨r, tC⟩
      cases r with
      | error e1 => simp [workThrough, hfirst, hretry] at h
      | ok u =>
        rw [workThrough_cons_ok config s stackList first pre st1 t tC u hfirst hretry] at h
        obtain ⟨hrun, hstarted⟩ := ih (tC ++ [.delay (.int 3000)]) tA tB h hfail
        have hup : updateStack config s (some st1) t =
            (.ok (), tC ++ [.delay (.int 3000)]) := by
          rw [updateStack_some, hretry]
        refine ⟨by
          rw [List.cons_append, updateAll_cons config s stackList first _ st1 t hfirst,
            bind_ok hup, hrun], ?_⟩
        rw [hstarted, started_append, started_after_retry config s st1 t tC _ hretry]
        simp [started, hfirst]

/-- The loop over names that all have a stack either works through all of them or works
through some of them and then meets a stack whose retries are exhausted. -/
theorem workThrough_or_failure (config : Config) (s : Surface) (stackList : List Stack) :
    ∀ (names : List String),
      (∀ name ∈ names, ∃ st,
        stackList.find? (fun st => decide (st.name = name)) = some st) →
      ∀ t : Trace,
        (∃ tA, workThrough config s stackList names t = some tA) ∨
        ∃ pre name post st tA tB e, names = pre ++ name :: post ∧
          workThrough config s stackList pre t = some tA ∧
          stackList.find? (fun st => decide (st.name = name)) = some st ∧
          withRetry config (updateAttempt s st) (tA ++ [.updateStack (some st)]) =
            (.error e, tB) := by
  intro names
  induction names with
  | nil => intro _ t; exact Or.inl ⟨t, rfl⟩
  | cons name rest ih =>
    intro hfound t
    obtain ⟨st, hst⟩ := hfound name (List.mem_cons_self _ _)
    have ih := ih (fun n hn => hfound n (List.mem_cons_of_mem _ hn))
    rcases hretry : withRetry config (updateAttempt s st) (t ++ [.updateStack (some st)])
      with ⟨r, tB⟩
    cases r with
    | error e => exact Or.inr ⟨[], name, rest, st, t, tB, e, rfl, rfl, hst, hretry⟩
    | ok u =>
      have hcons := workThrough_cons_ok config s stackList name rest st t tB u hst hretry
      rcases ih (tB ++ [.delay (.int 3000)]) with ⟨tA, hA⟩ | ⟨pre, name2, post, st2, tA, tB2, e,
        hsplit, hpre, hst2, hfail⟩
      · exact Or.inl ⟨tA, by rw [hcons, hA]⟩
      · exact Or.inr ⟨name :: pre, name2, post, st2, tA, tB2, e, by simp [hsplit],
          by rw [workThrough_cons_ok config s stackList name pre st t tB u hst hretry, hpre],
          hst2, hfail⟩

theorem names_of_found (stackList : List Stack) :
    ∀ names : List String,
      (∀ name ∈ names, ∃ st,
        stackList.find? (fun st => decide (st.name = name)) = some st) →
      (names.map (fun name => stackList.find? (fun st => decide (st.name = name)))).map
        (Option.map Stack.name) = names.map some := by
  intro names hall
  induction names with
  | nil => rfl
  | cons name rest ih =>
    obtain ⟨st, hst⟩ := hall name (List.mem_cons_self _ _)
    have hp := (List.find?_eq_some.mp hst).1
    simp only [decide_eq_true_eq] at hp
    have ih := ih (fun n hn => hall n (List.mem_cons_of_mem _ hn))
    simp only [List.map_cons, hst, Option.map_some', hp, ih]

/-- C4 as stated fails in its last clause when `browser.close()` itself is refused: `web`
is updated, the retries of `worker` are exhausted by a timeout, no later effect but
`close` follows, and `main` raises the rejection of `browser.close()`, not the timeout. -/
theorem main_stack_failure_replaced_by_close_rejection :
    (mainSession configThreeAttempts stuckCrashedSurface [.launch true]).1 =
        .error ⟨"TimeoutError", "Waiting for selector failed: 30000ms exceeded"⟩ ∧
      (started (main configThreeAttempts stuckCrashedSurface []).2).map
          (Option.map Stack.name) = [some "web", some "worker"] ∧
      (main configThreeAttempts stuckCrashedSurface []).1 =
        .error (mkError "Protocol error (Browser.close): Target closed") := by
  decide

/-- C4, amended. Once the stacks are discovered and every requested name is found: the
stacks on which `updateStack` is entered are, in order and one per occurrence, those of a
prefix of the requested names.  When the stacks of all names are worked through, the
prefix is the whole list and `main` returns normally unless `browser.close()` rejects.
When the stacks of some names are worked through and the retries of the next one are
exhausted, the `try` block raises that failure at once, the prefix ends at that stack,
only the closing of the browser follows, and `main` fails: with that failure when
`browser.close()` resolves, with the rejection of `browser.close()` otherwise.  One of
the two cases always holds, and the prefix is the whole list whenever `main` succeeds. -/
theorem main_processing_order (config : Config) (s : Surface) (t1 t2 : Trace)
    (stackList : List Stack)
    (hlaunch : mainLaunch config s [] = (.ok (), t1))
    (hdisc : mainDiscover config s t1 = (.ok (some stackList), t2))
    (hvalid : ∀ name ∈ config.stacksNames, ∃ st ∈ stackList, st.name = name) :
    (∃ n, started (main config s []).2 =
          (config.stacksNames.take n).map
            (fun name => stackList.find? (fun st => decide (st.name = name))) ∧
        (started (main config s []).2).map (Option.map Stack.name) =
          (config.stacksNames.take n).map some) ∧
      (∀ tA, workThrough config s stackList config.stacksNames t2 = some tA →
        mainSession config s t1 = (.ok (), tA) ∧
        main config s [] = (afterClose s tA (.ok ()), tA ++ [.close]) ∧
        (started (main config s []).2).map (Option.map Stack.name) =
          config.stacksNames.map some) ∧
      (∀ pre name post st tA tB e, config.stacksNames = pre ++ name :: post →
        workThrough config s stackList pre t2 = some tA →
        stackList.find? (fun st => decide (st.name = name)) = some st →
        withRetry config (updateAttempt s st) (tA ++ [.updateStack (some st)]) =
          (.error e, tB) →
        mainSession config s t1 = (.error e, tB) ∧
        main config s [] = (afterClose s tB (.error e), tB ++ [.close]) ∧
        (s.rejects (tB ++ [.close]) = none → (main config s []).1 = .error e) ∧
        (∃ e2, (main config s []).1 = .error e2) ∧
        (started (main config s []).2).map (Option.map Stack.name) =
          (pre ++ [name]).map some) ∧
      ((∃ tA, workThrough config s stackList config.stacksNames t2 = some tA) ∨
        ∃ pre name post st tA tB e, config.stacksNames = pre ++ name :: post ∧
          workThrough config s stackList pre t2 = some tA ∧
          stackList.find? (fun st => decide (st.name = name)) = some st ∧
          withRetry config (updateAttempt s st) (tA ++ [.updateStack (some st)]) =
            (.error e, tB)) ∧
      ((main config s []).1 = .ok () →
        (started (main config s []).2).map (Option.map Stack.name) =
          config.stacksNames.map some) := by
  have hfound : ∀ name ∈ config.stacksNames, ∃ st,
      stackList.find? (fun st => decide (st.name = name)) = some st := by
    intro name hname
    obtain ⟨st, hmem, hn⟩ := hvalid name hname
    cases hfind : stackList.find? (fun st => decide (st.name = name)) with
    | some st2 => exact ⟨st2, rfl⟩
    | none =>
      have := List.find?_eq_none.mp hfind st hmem
      simp [hn] at this
  have hval : validateStacks config (some stackList) = .ok () := by
    simp only [validateStacks, missingStacks_some]
    have hnil : config.stacksNames.filter
        (fun name => decide (∀ st ∈ stackList, st.name ≠ name)) = [] := by
      rw [List.filter_eq_nil_iff]
      intro name hname
      obtain ⟨st, hst, hn⟩ := hvalid name hname
      simp only [decide_eq_true_eq]
      intro hcontra
      exact hcontra st hst hn
    rw [hnil]
    rfl
  have hsess : mainSession config s t1 =
      updateAll config s (some stackList) config.stacksNames t2 := by
    rw [mainSession_of_discover config s t1 t2 _ hdisc, hval]
  obtain ⟨_, ht1⟩ := mainLaunch_ok config s t1 hlaunch
  obtain ⟨added, hadd, hP⟩ := emits_run (emits_mainDiscover config s) hdisc
  have hst2 : started t2 = [] := by
    subst ht1 hadd
    simp [started_append, started, started_of_isPage added hP]
  have hclose : ∀ t : Trace, started (t ++ [.close]) = started t := by
    intro t
    simp [started_append, started]
  have hok : ∀ tA, workThrough config s stackList config.stacksNames t2 = some tA →
      mainSession config s t1 = (.ok (), tA) ∧
      main config s [] = (afterClose s tA (.ok ()), tA ++ [.close]) ∧
      started (main config s []).2 = config.stacksNames.map
        (fun name => stackList.find? (fun st => decide (st.name = name))) := by
    intro tA hA
    obtain ⟨hrun, hstarted⟩ := updateAll_of_workThrough config s stackList _ t2 tA hA
    have hs : mainSession config s t1 = (.ok (), tA) := by rw [hsess, hrun]
    have hm := main_of_session config s t1 tA _ hlaunch hs
    refine ⟨hs, hm, ?_⟩
    rw [hm]
    simp only
    rw [hclose, hstarted, hst2]
    rfl
  have herr : ∀ pre name post st tA tB e, config.stacksNames = pre ++ name :: post →
      workThrough config s stackList pre t2 = some tA →
      stackList.find? (fun st => decide (st.name = name)) = some st →
      withRetry config (updateAttempt s st) (tA ++ [.updateStack (some st)]) =
        (.error e, tB) →
      mainSession config s t1 = (.error e, tB) ∧
      main config s [] = (afterClose s tB (.error e), tB ++ [.close]) ∧
      started (main config s []).2 = (pre ++ [name]).map
        (fun name => stackList.find? (fun st => decide (st.name = name))) := by
    intro pre name post st tA tB e hsplit hpre hst hfail
    obtain ⟨hrun, hstarted⟩ :=
      updateAll_of_failure config s stackList name post st e hst pre t2 tA tB hpre hfail
    have hs : mainSession config s t1 = (.error e, tB) := by rw [hsess, hsplit, hrun]
    have hm := main_of_session config s t1 tB _ hlaunch hs
    refine ⟨hs, hm, ?_⟩
    rw [hm]
    simp only
    rw [hclose, hstarted, hst2]
    rfl
  have hfoundpre : ∀ pre name post, config.stacksNames = pre ++ name :: post →
      ∀ n ∈ pre ++ [name], ∃ st,
        stackList.find? (fun st => decide (st.name = n)) = some st := by
    intro pre name post hsplit n hn
    apply hfound n
    rw [hsplit]
    simp only [List.mem_append, List.mem_singleton, List.mem_cons] at hn ⊢
    tauto
  have htotal := workThrough_or_failure config s stackList config.stacksNames hfound t2
  refine ⟨?_, fun tA hA => ?_, fun pre name post st tA tB e hsplit hpre hst hfail => ?_,
    htotal, fun hmainok => ?_⟩
  · rcases htotal with ⟨tA, hA⟩ | ⟨pre, name, post, st, tA, tB, e, hsplit, hpre, hst, hfail⟩
    · obtain ⟨_, _, hs⟩ := hok tA hA
      refine ⟨config.stacksNames.length, ?_, ?_⟩
      · rw [List.take_length]; exact hs
      · rw [List.take_length, hs]; exact names_of_found stackList _ hfound
    · obtain ⟨_, _, hs⟩ := herr pre name post st tA tB e hsplit hpre hst hfail
      have htake : config.stacksNames.take (pre.length + 1) = pre ++ [name] := by
        rw [hsplit]
        simp [List.take_append_eq_append_take]
      refine ⟨pre.length + 1, by rw [htake]; exact hs, ?_⟩
      rw [htake, hs]
      exact names_of_found stackList _ (hfoundpre pre name post hsplit)
  · obtain ⟨h1, h2, hs⟩ := hok tA hA
    exact ⟨h1, h2, by rw [hs]; exact names_of_found stackList _ hfound⟩
  · obtain ⟨h1, h2, hs⟩ := herr pre name post st tA tB e hsplit hpre hst hfail
    refine ⟨h1, h2, fun hc => ?_, ?_, ?_⟩
    · rw [h2]
      exact afterClose_of_resolved s tB _ hc
    · rw [h2]
      exact afterClose_error s tB e
    · rw [hs]
      exact names_of_found stackList _ (hfoundpre pre name post hsplit)
  · rcases htotal with ⟨tA, hA⟩ | ⟨pre, name, post, st, tA, tB, e, hsplit, hpre, hst, hfail⟩
    · obtain ⟨_, _, hs⟩ := hok tA hA
      rw [hs]
      exact names_of_found stackList _ hfound
    · obtain ⟨_, h2, _⟩ := herr pre name post st tA tB e hsplit hpre hst hfail
      rw [h2] at hmainok
      obtain ⟨e2, he2⟩ := afterClose_error s tB e
      simp only at hmainok
      rw [he2] at hmainok
      cases hmainok

/-- C4, amended, at a concrete input: `web` and `worker` are requested and exist, `web` is
updated, the update button of `worker` never shows up; `updateStack` is entered for `web`,
then for `worker`, and `main` fails with the timeout of the third attempt on `worker`. -/
theorem main_processing_order_witness :
    (main configThreeAttempts stuckSurface []).1 =
        .error ⟨"TimeoutError", "Waiting for selector failed: 30000ms exceeded"⟩ ∧
      (started (main configThreeAttempts stuckSurface []).2).map (Option.map Stack.name) =
        [some "web", some "worker"] :=
  have h := (main_processing_order configThreeAttempts stuckSurface [.launch true]
    discoveryTrace [⟨"web", "/stacks/web"⟩, ⟨"worker", "/stacks/worker"⟩]
    (by decide) (by decide) (by decide)).2.2.1 ["web"] "worker" [] ⟨"worker", "/stacks/worker"⟩
    ((withRetry configThreeAttempts (updateAttempt stuckSurface webStack)
      (discoveryTrace ++ [.updateStack (some webStack)])).2 ++ [.delay (.int 3000)])
    (withRetry configThreeAttempts (updateAttempt stuckSurface ⟨"worker", "/stacks/worker"⟩)
      ((withRetry configThreeAttempts (updateAttempt stuckSurface webStack)
        (discoveryTrace ++ [.updateStack (some webStack)])).2 ++ [.delay (.int 3000)] ++
        [.updateStack (some ⟨"worker", "/stacks/worker"⟩)])).2
    ⟨"TimeoutError", "Waiting for selector failed: 30000ms exceeded"⟩
    (by decide) (by decide) (by decide) (by decide)
  ⟨h.2.2.1 (by decide), h.2.2.2.2⟩

/-- The scenario `web, worker` in which `web` succeeds at once and `worker` succeeds on its
third attempt: the run succeeds, both stacks are entered in order, and exactly two retry
delays elapse. -/
theorem main_web_worker_scenario :
    (main configThreeAttempts flakySurface []).1 = .ok () ∧
      (started (main configThreeAttempts flakySurface []).2).map (Option.map Stack.name) =
        [some "web", some "worker"] ∧
      (main configThreeAttempts flakySurface []).2.count (.delay (.int 5000)) = 2 ∧
      (main configThreeAttempts flakySurface []).2.getLast? = some .close := by
  decide

/-! ## The stack update workflow -/

/-- Opening the dialog neither evaluates the confirm closure nor clicks the re-pull
checkbox or the modal's `Update` button. -/
theorem emits_openDialog_before_repull (s : Surface) (stack : Stack) :
    Emits (fun e => e ≠ .evaluate .confirm ∧ e ≠ .domClick .modalUpdate ∧
        e ≠ .domClick .repullCheckbox)
      (openDialog s stack) := by
  unfold openDialog
  repeat' first
    | apply emits_bind
    | apply emits_call
    | apply emits_delay
    | apply emits_evaluate_of
    | intro _
  all_goals first
    | (rename_i d target htarget
       unfold editorTabScript at htarget
       split at htarget <;> simp at htarget
       subst htarget
       simp)
    | simp

theorem repullScript_of_missing (d : Dom) (h : toggleMissing d) :
    repullScript d = (.ok false, []) := by
  unfold repullScript
  rcases h with h | ⟨label, hfind, hsib⟩
  · have hnone : d.labels.find?
        (fun label => trim label.textContent = "Re-pull image and redeploy") = none := by
      rw [List.find?_eq_none]
      intro label hlabel
      simpa using h label hlabel
    simp only [hnone]
  · simp only [hfind]
    rcases hsib with hnone | ⟨sibling, hsome, hswitch | hbox⟩
    · simp only [hnone]
    · simp [hsome, hswitch]
    · simp only [hsome, hbox]
      cases sibling.isSwitch <;> simp

theorem repullScript_cases (d : Dom) :
    repullScript d = (.ok false, []) ∨ repullScript d = (.ok true, [.repullCheckbox]) := by
  unfold repullScript
  split
  · exact Or.inl rfl
  · split
    · exact Or.inl rfl
    · split
      · exact Or.inl rfl
      · split
        · exact Or.inl rfl
        · exact Or.inr rfl

theorem activateRepull_of_refused (s : Surface) (t : Trace) (e : JSError)
    (hreq : s.rejects (t ++ [.evaluate .repull]) = some e) :
    activateRepull s t = (.error e, t ++ [.evaluate .repull]) := by
  simp [activateRepull, Prog.bind, evaluate, hreq]

theorem activateRepull_of_missing (s : Surface) (t : Trace)
    (hreq : s.rejects (t ++ [.evaluate .repull]) = none)
    (h : repullScript (s.dom (t ++ [.evaluate .repull])) = (.ok false, [])) :
    activateRepull s t =
      (.error (mkError "Failed to activate repull option"), t ++ [.evaluate .repull]) := by
  simp [activateRepull, Prog.bind, evaluate, hreq, h, Prog.throw]

theorem activateRepull_of_found (s : Surface) (t : Trace)
    (hreq : s.rejects (t ++ [.evaluate .repull]) = none)
    (h : repullScript (s.dom (t ++ [.evaluate .repull])) = (.ok true, [.repullCheckbox])) :
    activateRepull s t =
      (.ok (), t ++ [.evaluate .repull, .domClick .repullCheckbox, .delay (.int 1000)]) := by
  simp [activateRepull, Prog.bind, evaluate, hreq, h, delay, emit]

theorem prefix_of_not_mem {α : Type} (x : α) :
    ∀ (front rest pre post : List α), front ++ rest = pre ++ x :: post → x ∉ front →
      front <+: pre := by
  intro front
  induction front with
  | nil => intro rest pre post _ _; exact List.nil_prefix
  | cons a front ih =>
    intro rest pre post h hx
    cases pre with
    | nil =>
      simp only [List.cons_append, List.nil_append, List.cons.injEq] at h
      exact absurd (h.1 ▸ List.mem_cons_self _ _) hx
    | cons b pre =>
      simp only [List.cons_append, List.cons.injEq] at h
      obtain ⟨hab, hrest⟩ := h
      subst hab
      have := ih rest pre post hrest (fun hmem => hx (List.mem_cons_of_mem _ hmem))
      exact List.cons_prefix_cons.mpr ⟨rfl, this⟩

theorem emits_afterRepull (s : Surface) :
    Emits (fun _ => True)
      (Prog.bind (confirmUpdate s) fun _ => Prog.bind (observeOutcome s) fun _ => pure ()) := by
  have h1 := emits_mono (emits_confirmUpdate s) (Q := fun _ => True) fun _ _ => trivial
  have h2 := emits_mono (emits_observeOutcome s) (Q := fun _ => True) fun _ _ => trivial
  exact emits_bind h1 fun _ => emits_bind h2 fun _ => emits_pure _

theorem updateAttempt_of_repull (s : Surface) (stack : Stack) (t t1 t2 : Trace)
    (hopen : openDialog s stack t = (.ok (), t1))
    (hact : activateRepull s t1 = (.ok (), t2)) :
    updateAttempt s stack t =
      (Prog.bind (confirmUpdate s) fun _ => Prog.bind (observeOutcome s) fun _ => pure ()) t2 := by
  simp only [updateAttempt, reachConfirmed, bind_apply, Prog.bind, hopen, hact]

/-- C9. In an attempt that has opened the dialog, when the re-pull toggle cannot be
located the attempt fails right after looking for it, with `Failed to activate repull
option` whenever the browser let the closure run: the attempt neither evaluates the
confirm closure nor clicks the modal's `Update` button.  Conversely, in every attempt, an
evaluation of the confirm closure is preceded by the click on the re-pull checkbox. -/
theorem updateAttempt_repull_guard (s : Surface) (stack : Stack) (t : Trace) :
    (∀ t1, openDialog s stack t = (.ok (), t1) →
      toggleMissing (s.dom (t1 ++ [.evaluate .repull])) →
      (s.rejects (t1 ++ [.evaluate .repull]) = none →
        updateAttempt s stack t =
          (.error (mkError "Failed to activate repull option"),
            t1 ++ [.evaluate .repull])) ∧
      (∃ e, updateAttempt s stack t = (.error e, t1 ++ [.evaluate .repull])) ∧
      ∃ added, (updateAttempt s stack t).2 = t ++ added ∧
        ∀ e ∈ added, e ≠ .evaluate .confirm ∧ e ≠ .domClick .modalUpdate) ∧
    (∃ added, (updateAttempt s stack t).2 = t ++ added ∧
      ∀ pre post, added = pre ++ .evaluate .confirm :: post →
        Event.domClick .repullCheckbox ∈ pre) := by
  constructor
  · intro t1 hopen hmissing
    have hfail : ∃ e, activateRepull s t1 = (.error e, t1 ++ [.evaluate .repull]) ∧
        (s.rejects (t1 ++ [.evaluate .repull]) = none →
          e = mkError "Failed to activate repull option") := by
      cases hreq : s.rejects (t1 ++ [.evaluate .repull]) with
      | some e => exact ⟨e, activateRepull_of_refused s t1 e hreq, fun h => by cases h⟩
      | none =>
        exact ⟨_, activateRepull_of_missing s t1 hreq (repullScript_of_missing _ hmissing),
          fun _ => rfl⟩
    obtain ⟨e, hact, hmsg⟩ := hfail
    have hrun : updateAttempt s stack t = (.error e, t1 ++ [.evaluate .repull]) := by
      simp [updateAttempt, reachConfirmed, Prog.bind, hopen, hact]
    refine ⟨fun hreq => by rw [hrun, hmsg hreq], ⟨e, hrun⟩, ?_⟩
    obtain ⟨added, hadd, hP⟩ := emits_run (emits_openDialog_before_repull s stack) hopen
    refine ⟨added ++ [.evaluate .repull], by rw [hrun, hadd]; simp, ?_⟩
    intro e he
    rcases List.mem_append.mp he with he | he
    · exact ⟨(hP e he).1, (hP e he).2.1⟩
    · simp only [List.mem_singleton] at he
      subst he
      simp
  · rcases hopen : openDialog s stack t with ⟨r, t1⟩
    obtain ⟨added, hadd, hP⟩ := emits_run (emits_openDialog_before_repull s stack) hopen
    have hfront : ∀ tail : Trace, Event.evaluate .confirm ∉ tail →
        ∀ pre post, added ++ tail = pre ++ .evaluate .confirm :: post → False := by
      intro tail htail pre post h
      have hmem : Event.evaluate .confirm ∈ added ++ tail := by
        rw [h]; simp
      rcases List.mem_append.mp hmem with hm | hm
      · exact (hP _ hm).1 rfl
      · exact htail hm
    have hstop : ∀ e, activateRepull s t1 = (.error e, t1 ++ [.evaluate .repull]) →
        r = .ok () →
        ∃ added, (updateAttempt s stack t).2 = t ++ added ∧
          ∀ pre post, added = pre ++ .evaluate .confirm :: post →
            Event.domClick .repullCheckbox ∈ pre := by
      intro e hact hr
      subst hr
      have hrun : updateAttempt s stack t = (.error e, t1 ++ [.evaluate .repull]) := by
        simp [updateAttempt, reachConfirmed, Prog.bind, hopen, hact]
      refine ⟨added ++ [.evaluate .repull], by rw [hrun, hadd]; simp, ?_⟩
      intro pre post h
      exact (hfront [.evaluate .repull] (by simp) pre post h).elim
    cases r with
    | error e =>
      have hrun : updateAttempt s stack t = (.error e, t1) := by
        simp [updateAttempt, reachConfirmed, Prog.bind, hopen]
      refine ⟨added, by rw [hrun, hadd], ?_⟩
      intro pre post h
      exact (hfront [] (by simp) pre post (by simpa using h)).elim
    | ok u =>
      cases hreq : s.rejects (t1 ++ [.evaluate .repull]) with
      | some e => exact hstop e (activateRepull_of_refused s t1 e hreq) rfl
      | none =>
        rcases repullScript_cases (s.dom (t1 ++ [.evaluate .repull])) with hscript | hscript
        · exact hstop _ (activateRepull_of_missing s t1 hreq hscript) rfl
        · have hact := activateRepull_of_found s t1 hreq hscript
          have hrun := updateAttempt_of_repull s stack t t1 _ hopen hact
          obtain ⟨more, hmore, _⟩ := emits_afterRepull s
            (t1 ++ [.evaluate .repull, .domClick .repullCheckbox, .delay (.int 1000)])
          refine ⟨added ++ [.evaluate .repull, .domClick .repullCheckbox,
            .delay (.int 1000)] ++ more, by rw [hrun, hmore, hadd]; simp, ?_⟩
          intro pre post h
          have hnot : Event.evaluate .confirm ∉
              added ++ [.evaluate .repull, .domClick .repullCheckbox,
                .delay (.int 1000)] := by
            intro hmem
            rcases List.mem_append.mp hmem with hm | hm
            · exact (hP _ hm).1 rfl
            · simp at hm
          have hpre := prefix_of_not_mem (Event.evaluate .confirm) _ more pre post h hnot
          obtain ⟨extra, hextra⟩ := hpre
          rw [← hextra]
          simp

/-- C9 at a concrete input: the re-pull label is followed by an element that is not a
switch; the attempt on `web` fails right after looking for the toggle. -/
theorem updateAttempt_repull_guard_witness :
    updateAttempt noSwitchSurface webStack [] =
      (.error (mkError "Failed to activate repull option"),
        dialogTrace ++ [.evaluate .repull]) :=
  ((updateAttempt_repull_guard noSwitchSurface webStack []).1 dialogTrace (by decide)
    (Or.inr ⟨⟨"Re-pull image and redeploy", some ⟨false, true⟩⟩, by decide,
      Or.inr ⟨⟨false, true⟩, rfl, Or.inl rfl⟩⟩)).1 (by decide)

theorem observeOutcome_of_toast (s : Surface) (t : Trace)
    (h : s.rejects (t ++ [.waitForSelector errorToastSelector]) = none)
    (hread : s.rejects
      (t ++ [.waitForSelector errorToastSelector] ++ [.evaluate .errorText]) = none) :
    observeOutcome s t =
      (.error (mkError ("Update failed - Error: " ++
          s.toastText (t ++ [.waitForSelector errorToastSelector] ++ [.evaluate .errorText]))),
        t ++ [.waitForSelector errorToastSelector] ++ [.evaluate .errorText]) := by
  simp only [List.append_assoc, List.singleton_append] at hread
  simp [observeOutcome, Prog.bind, resolvedOrNull, call, h, hread, readToastText, answer,
    Prog.throw]

theorem observeOutcome_of_toast_unread (s : Surface) (t : Trace) (e : JSError)
    (h : s.rejects (t ++ [.waitForSelector errorToastSelector]) = none)
    (hread : s.rejects
      (t ++ [.waitForSelector errorToastSelector] ++ [.evaluate .errorText]) = some e) :
    observeOutcome s t =
      (.error e, t ++ [.waitForSelector errorToastSelector] ++ [.evaluate .errorText]) := by
  simp only [List.append_assoc, List.singleton_append] at hread
  simp [observeOutcome, Prog.bind, resolvedOrNull, call, h, hread, readToastText]

theorem observeOutcome_of_no_toast (s : Surface) (t : Trace)
    (h : s.rejects (t ++ [.waitForSelector errorToastSelector]) ≠ none)
    (hread : s.rejects
      (t ++ [.waitForSelector errorToastSelector] ++ [.evaluate .stackStatus]) = none) :
    observeOutcome s t =
      (.ok (statusScript
          (s.dom (t ++ [.waitForSelector errorToastSelector] ++ [.evaluate .stackStatus]))),
        t ++ [.waitForSelector errorToastSelector] ++ [.evaluate .stackStatus]) := by
  simp only [List.append_assoc, List.singleton_append] at hread
  cases hr : s.rejects (t ++ [.waitForSelector errorToastSelector]) with
  | none => exact absurd hr h
  | some e =>
    simp [observeOutcome, Prog.bind, resolvedOrNull, call, hr, evaluate, hread]

theorem observeOutcome_of_status_unread (s : Surface) (t : Trace) (e : JSError)
    (h : s.rejects (t ++ [.waitForSelector errorToastSelector]) ≠ none)
    (hread : s.rejects
      (t ++ [.waitForSelector errorToastSelector] ++ [.evaluate .stackStatus]) = some e) :
    observeOutcome s t =
      (.error e, t ++ [.waitForSelector errorToastSelector] ++ [.evaluate .stackStatus]) := by
  simp only [List.append_assoc, List.singleton_append] at hread
  cases hr : s.rejects (t ++ [.waitForSelector errorToastSelector]) with
  | none => exact absurd hr h
  | some e1 =>
    simp [observeOutcome, Prog.bind, resolvedOrNull, call, hr, evaluate, hread]

theorem updateAttempt_of_confirmed (s : Surface) (stack : Stack) (t0 t t3 : Trace)
    (r : Except JSError String)
    (hconfirmed : reachConfirmed s stack t0 = (.ok (), t))
    (hobserve : observeOutcome s t = (r, t3)) :
    updateAttempt s stack t0 = (r.map fun _ => (), t3) := by
  simp only [updateAttempt, bind_apply, bind_ok hconfirmed]
  cases r with
  | error e => rw [bind_error hobserve]; rfl
  | ok status => rw [bind_ok hobserve]; rfl

/-- C10 as stated fails when the page is replaced right after the update is confirmed: no
error toast is observed (the probe times out), the `page.evaluate` that reads the state
of the stack is refused, and the attempt fails with that refusal. -/
theorem updateAttempt_fails_without_error_toast :
    reachConfirmed lostPageSurface webStack [] = (.ok (), confirmedTrace) ∧
      lostPageSurface.rejects (confirmedTrace ++ [.waitForSelector errorToastSelector]) =
        some ⟨"TimeoutError", "Waiting for selector failed: 3000ms exceeded"⟩ ∧
      updateAttempt lostPageSurface webStack [] =
        (.error (mkError
            "Execution context was destroyed, most likely because of a navigation."),
          confirmedTrace ++ [.waitForSelector errorToastSelector] ++
            [.evaluate .stackStatus]) := by
  decide

/-- C10, amended. In an attempt whose update has been confirmed: when the probe for an
error toast finds one the attempt fails, with the message `Update failed - Error: `
followed by the toast's text whenever the browser lets that text be read; when the probe
finds none and the browser lets the state be read, the status is `success` when the
update region or a success toast is present, `updating` when neither is but the modal
is, `unknown` when none is, and in all three cases the attempt ends normally and
`withRetry` returns at once, without a delay or another invocation; when the probe finds
none and reading the state is refused, the attempt fails with that refusal.  So the
attempt fails exactly when an error toast is found or reading the state is refused. -/
theorem updateAttempt_outcome (config : Config) (s : Surface) (stack : Stack)
    (t0 t : Trace) (hconfirmed : reachConfirmed s stack t0 = (.ok (), t)) :
    (s.rejects (t ++ [.waitForSelector errorToastSelector]) = none →
        (∃ e, updateAttempt s stack t0 =
          (.error e, t ++ [.waitForSelector errorToastSelector] ++ [.evaluate .errorText])) ∧
        (s.rejects (t ++ [.waitForSelector errorToastSelector] ++ [.evaluate .errorText]) =
            none →
          updateAttempt s stack t0 =
            (.error (mkError ("Update failed - Error: " ++
                s.toastText
                  (t ++ [.waitForSelector errorToastSelector] ++ [.evaluate .errorText]))),
              t ++ [.waitForSelector errorToastSelector] ++ [.evaluate .errorText]))) ∧
      (s.rejects (t ++ [.waitForSelector errorToastSelector]) ≠ none →
        s.rejects (t ++ [.waitForSelector errorToastSelector] ++ [.evaluate .stackStatus]) =
          none →
        observeOutcome s t =
          (.ok (statusScript
              (s.dom (t ++ [.waitForSelector errorToastSelector] ++ [.evaluate .stackStatus]))),
            t ++ [.waitForSelector errorToastSelector] ++ [.evaluate .stackStatus]) ∧
        updateAttempt s stack t0 =
          (.ok (), t ++ [.waitForSelector errorToastSelector] ++ [.evaluate .stackStatus]) ∧
        ∀ attempt, JSNum.le (.int attempt) config.retryAttempts = true →
          withRetryLoop config (updateAttempt s stack) attempt t0 =
            (.ok (some ()),
              t ++ [.waitForSelector errorToastSelector] ++ [.evaluate .stackStatus])) ∧
      (s.rejects (t ++ [.waitForSelector errorToastSelector]) ≠ none →
        ∀ e, s.rejects
            (t ++ [.waitForSelector errorToastSelector] ++ [.evaluate .stackStatus]) =
            some e →
          updateAttempt s stack t0 =
            (.error e,
              t ++ [.waitForSelector errorToastSelector] ++ [.evaluate .stackStatus])) ∧
      ((∃ e, (updateAttempt s stack t0).1 = .error e) ↔
        (s.rejects (t ++ [.waitForSelector errorToastSelector]) = none ∨
          s.rejects (t ++ [.waitForSelector errorToastSelector] ++ [.evaluate .stackStatus]) ≠
            none)) ∧
      (∀ d : Dom,
        (statusScript d = "success" ↔ (d.updateRegion = true ∨ d.successToast = true)) ∧
        (statusScript d = "updating" ↔
          (d.updateRegion = false ∧ d.successToast = false ∧ d.modal.isSome = true)) ∧
        (statusScript d = "unknown" ↔
          (d.updateRegion = false ∧ d.successToast = false ∧ d.modal = none))) := by
  have htoast : s.rejects (t ++ [.waitForSelector errorToastSelector]) = none →
      (∃ e, updateAttempt s stack t0 =
        (.error e, t ++ [.waitForSelector errorToastSelector] ++ [.evaluate .errorText])) ∧
      (s.rejects (t ++ [.waitForSelector errorToastSelector] ++ [.evaluate .errorText]) =
          none →
        updateAttempt s stack t0 =
          (.error (mkError ("Update failed - Error: " ++
              s.toastText
                (t ++ [.waitForSelector errorToastSelector] ++ [.evaluate .errorText]))),
            t ++ [.waitForSelector errorToastSelector] ++ [.evaluate .errorText])) := by
    intro h
    have hread : s.rejects
        (t ++ [.waitForSelector errorToastSelector] ++ [.evaluate .errorText]) = none →
        updateAttempt s stack t0 =
          (.error (mkError ("Update failed - Error: " ++
              s.toastText
                (t ++ [.waitForSelector errorToastSelector] ++ [.evaluate .errorText]))),
            t ++ [.waitForSelector errorToastSelector] ++ [.evaluate .errorText]) :=
      fun h2 => updateAttempt_of_confirmed s stack t0 t _ _ hconfirmed
        (observeOutcome_of_toast s t h h2)
    refine ⟨?_, hread⟩
    cases h2 : s.rejects
        (t ++ [.waitForSelector errorToastSelector] ++ [.evaluate .errorText]) with
    | none => exact ⟨_, hread h2⟩
    | some e =>
      exact ⟨e, updateAttempt_of_confirmed s stack t0 t _ _ hconfirmed
        (observeOutcome_of_toast_unread s t e h h2)⟩
  have hclean : s.rejects (t ++ [.waitForSelector errorToastSelector]) ≠ none →
      s.rejects (t ++ [.waitForSelector errorToastSelector] ++ [.evaluate .stackStatus]) =
        none →
      updateAttempt s stack t0 =
        (.ok (), t ++ [.waitForSelector errorToastSelector] ++ [.evaluate .stackStatus]) :=
    fun h h2 => updateAttempt_of_confirmed s stack t0 t _ _ hconfirmed
      (observeOutcome_of_no_toast s t h h2)
  have hlost : s.rejects (t ++ [.waitForSelector errorToastSelector]) ≠ none →
      ∀ e, s.rejects
          (t ++ [.waitForSelector errorToastSelector] ++ [.evaluate .stackStatus]) =
          some e →
        updateAttempt s stack t0 =
          (.error e,
            t ++ [.waitForSelector errorToastSelector] ++ [.evaluate .stackStatus]) :=
    fun h e h2 => updateAttempt_of_confirmed s stack t0 t _ _ hconfirmed
      (observeOutcome_of_status_unread s t e h h2)
  refine ⟨htoast, fun h h2 => ?_, hlost, ⟨?_, ?_⟩, ?_⟩
  · refine ⟨observeOutcome_of_no_toast s t h h2, hclean h h2, fun attempt hguard => ?_⟩
    exact withRetryLoop_ok config _ attempt t0 _ () hguard (hclean h h2)
  · rintro ⟨e, he⟩
    by_contra hcon
    rw [not_or, not_not] at hcon
    rw [hclean hcon.1 hcon.2] at he
    cases he
  · rintro (h | h)
    · obtain ⟨e, he⟩ := (htoast h).1
      exact ⟨e, by rw [he]⟩
    · by_cases hp : s.rejects (t ++ [.waitForSelector errorToastSelector]) = none
      · obtain ⟨e, he⟩ := (htoast hp).1
        exact ⟨e, by rw [he]⟩
      · cases h2 : s.rejects
            (t ++ [.waitForSelector errorToastSelector] ++ [.evaluate .stackStatus]) with
        | none => exact absurd h2 h
        | some e => exact ⟨e, by rw [hlost hp e h2]⟩
  · intro d
    rcases d with ⟨tabs, labels, modal, updateRegion, successToast⟩
    cases updateRegion <;> cases successToast <;> cases modal <;>
      simp [statusScript]

/-- C10, amended, at concrete inputs: with a success toast and no error toast the attempt
on `web` ends normally; with an error toast `image not found` it fails with that text. -/
theorem updateAttempt_outcome_witness :
    updateAttempt consoleSurface webStack [] =
        (.ok (), confirmedTrace ++ [.waitForSelector errorToastSelector] ++
          [.evaluate .stackStatus]) ∧
      updateAttempt toastSurface webStack [] =
        (.error (mkError "Update failed - Error: image not found"),
          confirmedTrace ++ [.waitForSelector errorToastSelector] ++
            [.evaluate .errorText]) :=
  ⟨((updateAttempt_outcome configThreeAttempts consoleSurface webStack [] confirmedTrace
      (by decide)).2.1 (by decide) (by decide)).2.1,
    ((updateAttempt_outcome configThreeAttempts toastSurface webStack [] confirmedTrace
      (by decide)).1 (by decide)).2 (by decide)⟩

end StackSync
